import Mathlib

/-!
Verification of the numerical-integration core of the hypelab physics
simulations.  Each simulation family (spring-mass harmonic oscillator,
Lorenz attractor, double pendulum, N-body orbital motion, quantum wave
function) is shallowly embedded over the real numbers, following the
JavaScript source: pure methods become Lean functions, instance fields
become structure fields, and the per-frame mutation of a method becomes
an explicit state-passing function.
-/

noncomputable section

/-- The standard four-stage RK4 scheme on a real vector space:
k1 = f t y, k2 = f (t+dt/2) (y+dt/2 k1), k3 = f (t+dt/2) (y+dt/2 k2),
k4 = f (t+dt) (y+dt k3), result y + dt/6 (k1 + 2 k2 + 2 k3 + k4). -/
def rk4 {α : Type} [AddCommGroup α] [Module ℝ α] (f : ℝ → α → α) (t dt : ℝ) (y : α) : α :=
  let k1 := f t y
  let k2 := f (t + dt / 2) (y + (dt / 2) • k1)
  let k3 := f (t + dt / 2) (y + (dt / 2) • k2)
  let k4 := f (t + dt) (y + dt • k3)
  y + (dt / 6) • (k1 + (2 : ℝ) • k2 + (2 : ℝ) • k3 + k4)

/-- JavaScript remainder a % b: truncated division remainder
(the sign follows the dividend). -/
def jsRem (a b : ℝ) : ℝ :=
  if 0 ≤ a / b then a - b * ⌊a / b⌋ else a - b * ⌈a / b⌉

/-- The push-then-shift idiom used by every history buffer of the
simulations: append the new sample, then drop the oldest (head) sample
when the declared bound is exceeded. -/
def pushBounded {α : Type} (m : ℕ) (l : List α) (x : α) : List α :=
  if m < (l ++ [x]).length then (l ++ [x]).tail else l ++ [x]

namespace HO

/-- Physics parameters of the HarmonicOscillator class
(fields mass, springConstant, damping, driveAmplitude,
driveAngularFrequency of the constructor). -/
structure Params where
  mass : ℝ
  springConstant : ℝ
  damping : ℝ
  driveAmplitude : ℝ
  driveAngularFrequency : ℝ
  initialPosition : ℝ
  initialVelocity : ℝ

/-- HarmonicOscillator.calculateAcceleration(time, position, velocity). -/
def calculateAcceleration (p : Params) (time position velocity : ℝ) : ℝ :=
  let drivingForce := p.driveAmplitude * Real.cos (p.driveAngularFrequency * time)
  let springForce := -p.springConstant * position
  let dampingForce := -p.damping * velocity
  (springForce + dampingForce + drivingForce) / p.mass

/-- HarmonicOscillator.updatePhysics(dt): the RK4 block acting on
(position, velocity) plus the time increment; returns
(new position, new velocity, new time). -/
def updatePhysics (p : Params) (time position velocity dt : ℝ) : ℝ × ℝ × ℝ :=
  let k1v := calculateAcceleration p time position velocity * dt
  let k1x := velocity * dt
  let k2v := calculateAcceleration p (time + dt/2) (position + k1x/2) (velocity + k1v/2) * dt
  let k2x := (velocity + k1v/2) * dt
  let k3v := calculateAcceleration p (time + dt/2) (position + k2x/2) (velocity + k2v/2) * dt
  let k3x := (velocity + k2v/2) * dt
  let k4v := calculateAcceleration p (time + dt) (position + k3x) (velocity + k3v) * dt
  let k4x := (velocity + k3v) * dt
  (position + (k1x + 2*k2x + 2*k3x + k4x) / 6,
   velocity + (k1v + 2*k2v + 2*k3v + k4v) / 6,
   time + dt)

/-- The derivative function of the spring-mass system: the state is
(position, velocity) and its rate is (velocity, acceleration). -/
def deriv (p : Params) (t : ℝ) (y : ℝ × ℝ) : ℝ × ℝ :=
  (y.2, calculateAcceleration p t y.1 y.2)

/-- this.maxDataPoints = 300 (constructor constant). -/
def maxDataPoints : ℕ := 300

/-- Mutable fields of the HarmonicOscillator class that take part in
the physics and the graph-data buffers. -/
structure State where
  time : ℝ
  position : ℝ
  velocity : ℝ
  acceleration : ℝ
  isDragging : Bool
  timeData : List ℝ
  positionData : List ℝ
  velocityData : List ℝ
  kineticEnergyData : List ℝ
  potentialEnergyData : List ℝ
  totalEnergyData : List ℝ
  phaseData : List (ℝ × ℝ)

/-- HarmonicOscillator.reset(): restore the state from the initial
condition fields and clear every graph buffer. -/
def reset (p : Params) (s : State) : State :=
  { s with time := 0,
           position := p.initialPosition,
           velocity := p.initialVelocity,
           acceleration := 0,
           timeData := [], positionData := [], velocityData := [],
           kineticEnergyData := [], potentialEnergyData := [],
           totalEnergyData := [], phaseData := [] }

/-- HarmonicOscillator.storeGraphData(): push the current sample onto
every graph buffer, then drop the oldest sample of each buffer when the
length bound is exceeded. -/
def storeGraphData (p : Params) (s : State) : State :=
  let kinetic := 0.5 * p.mass * s.velocity * s.velocity
  let potential := 0.5 * p.springConstant * s.position * s.position
  let s1 := { s with timeData := s.timeData ++ [s.time],
                     positionData := s.positionData ++ [s.position],
                     velocityData := s.velocityData ++ [s.velocity],
                     kineticEnergyData := s.kineticEnergyData ++ [kinetic],
                     potentialEnergyData := s.potentialEnergyData ++ [potential],
                     totalEnergyData := s.totalEnergyData ++ [kinetic + potential],
                     phaseData := s.phaseData ++ [(s.position, s.velocity)] }
  if maxDataPoints < s1.timeData.length then
    { s1 with timeData := s1.timeData.tail,
              positionData := s1.positionData.tail,
              velocityData := s1.velocityData.tail,
              kineticEnergyData := s1.kineticEnergyData.tail,
              potentialEnergyData := s1.potentialEnergyData.tail,
              totalEnergyData := s1.totalEnergyData.tail,
              phaseData := s1.phaseData.tail }
  else s1

/-- HarmonicOscillator.update(dt) restricted to the physics state and
buffers: when dragging nothing moves, otherwise one RK4 step, the
acceleration recomputation for display and the graph-data push. -/
def update (p : Params) (s : State) (dt : ℝ) : State :=
  if s.isDragging then s
  else
    let v := updatePhysics p s.time s.position s.velocity dt
    let s1 := { s with position := v.1, velocity := v.2.1, time := v.2.2 }
    let s2 := { s1 with acceleration :=
        calculateAcceleration p s1.time s1.position s1.velocity }
    storeGraphData p s2

/-- The onChange handler of the damping parameter descriptor: it stores
the received value unchanged in this.damping (the subsequent
calculateDampingRatio call only refreshes a display value). -/
def dampingOnChange (p : Params) (value : ℝ) : Params :=
  { p with damping := value }

/-- The HarmonicOscillator constructor defaults for the physics
parameters. -/
def defaultParams : Params :=
  { mass := 1, springConstant := 10, damping := 0.05,
    driveAmplitude := 0, driveAngularFrequency := 0,
    initialPosition := 1, initialVelocity := 0 }

/-- A HarmonicOscillator state with empty graph buffers, as produced by
reset from the rest position. -/
def emptyState : State :=
  { time := 0, position := 1, velocity := 0, acceleration := 0,
    isDragging := false,
    timeData := [], positionData := [], velocityData := [],
    kineticEnergyData := [], potentialEnergyData := [],
    totalEnergyData := [], phaseData := [] }

/-- Invariant of the spring-mass graph buffers: all seven buffers have
the same length, that length never exceeds maxDataPoints, and the time
samples are monotonically increasing and never ahead of the clock. -/
def buffersInv (s : State) : Prop :=
  s.timeData.length ≤ maxDataPoints ∧
  s.positionData.length = s.timeData.length ∧
  s.velocityData.length = s.timeData.length ∧
  s.kineticEnergyData.length = s.timeData.length ∧
  s.potentialEnergyData.length = s.timeData.length ∧
  s.totalEnergyData.length = s.timeData.length ∧
  s.phaseData.length = s.timeData.length ∧
  List.Chain' (· ≤ ·) s.timeData ∧
  ∀ x ∈ s.timeData, x ≤ s.time

end HO

namespace Lorenz

/-- A point of the stored trajectory: position sample plus time stamp. -/
structure TrajPoint where
  x : ℝ
  y : ℝ
  z : ℝ
  time : ℝ

/-- An entry of the Lyapunov history: time stamp plus recorded value. -/
structure HistPoint where
  time : ℝ
  value : ℝ

/-- The value fields of the initialX, initialY, initialZ UI parameters,
read back by LorenzAttractor.reset. -/
structure Params where
  initialX : ℝ
  initialY : ℝ
  initialZ : ℝ

/-- Mutable fields of the LorenzAttractor class that take part in the
physics, the Lyapunov estimation and the history buffers. -/
structure State where
  sigma : ℝ
  rho : ℝ
  beta : ℝ
  x : ℝ
  y : ℝ
  z : ℝ
  comparisonX : ℝ
  comparisonY : ℝ
  comparisonZ : ℝ
  time : ℝ
  timeStep : ℝ
  showComparison : Bool
  trajectory : List TrajPoint
  comparisonTrajectory : List TrajPoint
  timeSeriesTime : List ℝ
  timeSeriesX : List ℝ
  timeSeriesY : List ℝ
  timeSeriesZ : List ℝ
  lyapunovExponent : ℝ
  lyapunovTime : ℝ
  lyapunovDelta0 : ℝ
  lyapunovDelta : ℝ
  lyapunovHistory : List HistPoint
  powerSpectrumFreqs : List ℝ
  powerSpectrumAmps : List ℝ
  lastPowerSpectrumUpdate : ℝ

/-- this.maxTrajectoryPoints = 2000 (constructor constant). -/
def maxTrajectoryPoints : ℕ := 2000

/-- this.maxLyapunovPoints = 200 (constructor constant). -/
def maxLyapunovPoints : ℕ := 200

/-- LorenzAttractor.derivatives(x, y, z): the Lorenz equations. -/
def derivatives (s : State) (x y z : ℝ) : ℝ × ℝ × ℝ :=
  (s.sigma * (y - x), x * (s.rho - z) - y, x * y - s.beta * z)

/-- The Lorenz derivative function as a time-independent vector field. -/
def lderiv (s : State) (_t : ℝ) (v : ℝ × ℝ × ℝ) : ℝ × ℝ × ℝ :=
  derivatives s v.1 v.2.1 v.2.2

/-- The RK4 block that both LorenzAttractor.updateTrajectory and
LorenzAttractor.updateComparisonTrajectory contain verbatim, applied to
the given starting point (x0, y0, z0). -/
def stepXYZ (s : State) (x0 y0 z0 dt : ℝ) : ℝ × ℝ × ℝ :=
  let k1 := derivatives s x0 y0 z0
  let k2 := derivatives s (x0 + k1.1 * dt/2) (y0 + k1.2.1 * dt/2) (z0 + k1.2.2 * dt/2)
  let k3 := derivatives s (x0 + k2.1 * dt/2) (y0 + k2.2.1 * dt/2) (z0 + k2.2.2 * dt/2)
  let k4 := derivatives s (x0 + k3.1 * dt) (y0 + k3.2.1 * dt) (z0 + k3.2.2 * dt)
  (x0 + (k1.1 + 2*k2.1 + 2*k3.1 + k4.1) * dt/6,
   y0 + (k1.2.1 + 2*k2.2.1 + 2*k3.2.1 + k4.2.1) * dt/6,
   z0 + (k1.2.2 + 2*k2.2.2 + 2*k3.2.2 + k4.2.2) * dt/6)

/-- LorenzAttractor.updateTrajectory(dt): one RK4 step of the main
trajectory plus the bounded trajectory-buffer push. -/
def updateTrajectory (s : State) (dt : ℝ) : State :=
  let v := stepXYZ s s.x s.y s.z dt
  let traj := s.trajectory ++ [(⟨v.1, v.2.1, v.2.2, s.time⟩ : TrajPoint)]
  { s with x := v.1, y := v.2.1, z := v.2.2,
           trajectory := if maxTrajectoryPoints < traj.length then traj.tail else traj }

/-- LorenzAttractor.updateComparisonTrajectory(dt). -/
def updateComparisonTrajectory (s : State) (dt : ℝ) : State :=
  let v := stepXYZ s s.comparisonX s.comparisonY s.comparisonZ dt
  let traj := s.comparisonTrajectory ++ [(⟨v.1, v.2.1, v.2.2, s.time⟩ : TrajPoint)]
  { s with comparisonX := v.1, comparisonY := v.2.1, comparisonZ := v.2.2,
           comparisonTrajectory := if maxTrajectoryPoints < traj.length then traj.tail else traj }

/-- LorenzAttractor.calculateLyapunovExponent(dt). -/
def calculateLyapunovExponent (s : State) (dt : ℝ) : State :=
  let lyapTime := s.lyapunovTime + dt
  let dx := s.x - s.comparisonX
  let dy := s.y - s.comparisonY
  let dz := s.z - s.comparisonZ
  let delta := Real.sqrt (dx*dx + dy*dy + dz*dz)
  if 0.01 < delta then
    let lam := Real.log (delta / s.lyapunovDelta0) / lyapTime
    let hist := s.lyapunovHistory ++ [⟨s.time, lam⟩]
    let scale := s.lyapunovDelta0 / delta
    { s with lyapunovDelta := delta,
             lyapunovExponent := lam,
             lyapunovHistory := if maxLyapunovPoints < hist.length then hist.tail else hist,
             comparisonX := s.x - dx * scale,
             comparisonY := s.y - dy * scale,
             comparisonZ := s.z - dz * scale,
             lyapunovTime := 0 }
  else
    { s with lyapunovDelta := delta, lyapunovTime := lyapTime }

/-- LorenzAttractor.resetComparison(). -/
def resetComparison (s : State) : State :=
  let s1 := { s with comparisonX := s.x + s.lyapunovDelta0,
                     comparisonY := s.y,
                     comparisonZ := s.z,
                     comparisonTrajectory := [] }
  if 0 < s1.trajectory.length then
    { s1 with comparisonTrajectory := s1.comparisonTrajectory ++
        [(⟨s1.comparisonX, s1.comparisonY, s1.comparisonZ, s1.time⟩ : TrajPoint)] }
  else s1

/-- LorenzAttractor.reset(). -/
def reset (p : Params) (s : State) : State :=
  let s1 := { s with x := p.initialX, y := p.initialY, z := p.initialZ,
                     time := 0, trajectory := [], comparisonTrajectory := [],
                     timeSeriesTime := [], timeSeriesX := [], timeSeriesY := [],
                     timeSeriesZ := [],
                     lyapunovExponent := 0, lyapunovTime := 0,
                     lyapunovDelta := s.lyapunovDelta0, lyapunovHistory := [],
                     powerSpectrumFreqs := [], powerSpectrumAmps := [],
                     lastPowerSpectrumUpdate := 0 }
  let s2 := if s1.showComparison then resetComparison s1 else s1
  let s3 := { s2 with trajectory := s2.trajectory ++
      [(⟨s2.x, s2.y, s2.z, s2.time⟩ : TrajPoint)] }
  let s4 := if s3.showComparison then
      { s3 with comparisonTrajectory := s3.comparisonTrajectory ++
          [(⟨s3.comparisonX, s3.comparisonY, s3.comparisonZ, s3.time⟩ : TrajPoint)] }
    else s3
  { s4 with timeSeriesTime := s4.timeSeriesTime ++ [s4.time],
            timeSeriesX := s4.timeSeriesX ++ [s4.x],
            timeSeriesY := s4.timeSeriesY ++ [s4.y],
            timeSeriesZ := s4.timeSeriesZ ++ [s4.z] }

/-- One iteration of the fixed-step loop inside LorenzAttractor.update:
main RK4 step, then comparison step and Lyapunov update when enabled,
then the time increment. -/
def substep (s : State) (dt : ℝ) : State :=
  let s1 := updateTrajectory s dt
  let s2 := if s1.showComparison then
      calculateLyapunovExponent (updateComparisonTrajectory s1 dt) dt
    else s1
  { s2 with time := s2.time + dt }

/-- A run of the integrator over a given sequence of fixed time steps. -/
def run (s : State) (dts : List ℝ) : State :=
  dts.foldl substep s

/-- The phase-space Euclidean distance between the primary and the
comparison trajectory, as computed inside calculateLyapunovExponent. -/
def phaseDist (s : State) : ℝ :=
  Real.sqrt ((s.x - s.comparisonX) * (s.x - s.comparisonX) +
    (s.y - s.comparisonY) * (s.y - s.comparisonY) +
    (s.z - s.comparisonZ) * (s.z - s.comparisonZ))

/-- Invariant of the Lorenz trajectory buffer: bounded length and
monotonically increasing time stamps never ahead of the clock. -/
def trajInv (s : State) : Prop :=
  s.trajectory.length ≤ maxTrajectoryPoints ∧
  List.Chain' (· ≤ ·) (s.trajectory.map TrajPoint.time) ∧
  ∀ q ∈ s.trajectory, q.time ≤ s.time

/-- A LorenzAttractor instance as built by the constructor (which ends
by calling reset): default initial conditions x = 0.1, y = 0, z = 0 and
the given sigma, rho, beta. -/
def initInstance (sigma rho beta : ℝ) : State :=
  reset ⟨0.1, 0, 0⟩
    { sigma := sigma, rho := rho, beta := beta,
      x := 0.1, y := 0, z := 0,
      comparisonX := 0.1 + 0.0001, comparisonY := 0, comparisonZ := 0,
      time := 0, timeStep := 0.005, showComparison := true,
      trajectory := [], comparisonTrajectory := [],
      timeSeriesTime := [], timeSeriesX := [], timeSeriesY := [], timeSeriesZ := [],
      lyapunovExponent := 0, lyapunovTime := 0,
      lyapunovDelta0 := 0.0001, lyapunovDelta := 0.0001,
      lyapunovHistory := [],
      powerSpectrumFreqs := [], powerSpectrumAmps := [],
      lastPowerSpectrumUpdate := 0 }

/-- A concrete Lorenz state whose comparison trajectory coincides with
the primary one (phase distance zero). -/
def coincidentState : State :=
  { sigma := 10, rho := 28, beta := 8/3,
    x := 1, y := 0, z := 0,
    comparisonX := 1, comparisonY := 0, comparisonZ := 0,
    time := 0, timeStep := 0.005, showComparison := true,
    trajectory := [], comparisonTrajectory := [],
    timeSeriesTime := [], timeSeriesX := [], timeSeriesY := [], timeSeriesZ := [],
    lyapunovExponent := 0, lyapunovTime := 0,
    lyapunovDelta0 := 0.0001, lyapunovDelta := 0.0001,
    lyapunovHistory := [],
    powerSpectrumFreqs := [], powerSpectrumAmps := [],
    lastPowerSpectrumUpdate := 0 }

end Lorenz

namespace DP

/-- An entry of the Lyapunov history of the double pendulum. -/
structure HistPoint where
  time : ℝ
  value : ℝ

/-- Instance fields of the DoublePendulum class used by the physics:
gravity, damping and the four mechanical parameters. -/
structure Params where
  gravity : ℝ
  damping : ℝ
  length1 : ℝ
  length2 : ℝ
  mass1 : ℝ
  mass2 : ℝ

/-- The value fields of the angle1, angle2, angularVelocity1 and
angularVelocity2 UI parameters, read back by DoublePendulum.reset. -/
structure InitParams where
  angle1 : ℝ
  angle2 : ℝ
  angularVelocity1 : ℝ
  angularVelocity2 : ℝ

/-- The record returned by DoublePendulum.derivatives. -/
structure Deriv where
  dTheta1 : ℝ
  dOmega1 : ℝ
  dTheta2 : ℝ
  dOmega2 : ℝ

/-- The first denominator of DoublePendulum.derivatives:
den1 = (m1 + m2) l1 - m2 l1 cos(delta)^2 with delta = theta2 - theta1. -/
def den1 (p : Params) (theta1 theta2 : ℝ) : ℝ :=
  (p.mass1 + p.mass2) * p.length1 -
    p.mass2 * p.length1 * Real.cos (theta2 - theta1) * Real.cos (theta2 - theta1)

/-- The second denominator of DoublePendulum.derivatives:
den2 = (l2 / l1) den1. -/
def den2 (p : Params) (theta1 theta2 : ℝ) : ℝ :=
  (p.length2 / p.length1) * den1 p theta1 theta2

/-- DoublePendulum.derivatives(theta1, omega1, theta2, omega2):
the Lagrangian equations of motion of the two links. -/
def derivatives (p : Params) (theta1 omega1 theta2 omega2 : ℝ) : Deriv :=
  let m1 := p.mass1
  let m2 := p.mass2
  let l1 := p.length1
  let l2 := p.length2
  let g := p.gravity
  let d := p.damping
  let delta := theta2 - theta1
  let cosDelta := Real.cos delta
  let sinDelta := Real.sin delta
  let dOmega1 :=
    (m2 * l1 * omega1 * omega1 * sinDelta * cosDelta +
     m2 * g * Real.sin theta2 * cosDelta +
     m2 * l2 * omega2 * omega2 * sinDelta -
     (m1 + m2) * g * Real.sin theta1 -
     d * omega1 * den1 p theta1 theta2) / den1 p theta1 theta2
  let dOmega2 :=
    (-(m2 * l2 * omega2 * omega2 * sinDelta * cosDelta) +
     (m1 + m2) * g * Real.sin theta1 * cosDelta -
     (m1 + m2) * l1 * omega1 * omega1 * sinDelta -
     (m1 + m2) * g * Real.sin theta2 -
     d * omega2 * den2 p theta1 theta2) / den2 p theta1 theta2
  ⟨omega1, dOmega1, omega2, dOmega2⟩

/-- DoublePendulum.normalizeAngle(angle): ((angle + pi) % (2 pi)) - pi
with the JavaScript remainder. -/
def normalizeAngle (angle : ℝ) : ℝ :=
  jsRem (angle + Real.pi) (2 * Real.pi) - Real.pi

/-- The RK4 block that DoublePendulum.updatePendulum and
DoublePendulum.updateComparisonPendulum contain verbatim, before the
angle normalization, returning
(angle1, angularVelocity1, angle2, angularVelocity2). -/
def rk4Block (p : Params) (a1 w1 a2 w2 dt : ℝ) : ℝ × ℝ × ℝ × ℝ :=
  let k1 := derivatives p a1 w1 a2 w2
  let k2 := derivatives p (a1 + k1.dTheta1 * dt/2) (w1 + k1.dOmega1 * dt/2)
    (a2 + k1.dTheta2 * dt/2) (w2 + k1.dOmega2 * dt/2)
  let k3 := derivatives p (a1 + k2.dTheta1 * dt/2) (w1 + k2.dOmega1 * dt/2)
    (a2 + k2.dTheta2 * dt/2) (w2 + k2.dOmega2 * dt/2)
  let k4 := derivatives p (a1 + k3.dTheta1 * dt) (w1 + k3.dOmega1 * dt)
    (a2 + k3.dTheta2 * dt) (w2 + k3.dOmega2 * dt)
  (a1 + (k1.dTheta1 + 2*k2.dTheta1 + 2*k3.dTheta1 + k4.dTheta1) * dt/6,
   w1 + (k1.dOmega1 + 2*k2.dOmega1 + 2*k3.dOmega1 + k4.dOmega1) * dt/6,
   a2 + (k1.dTheta2 + 2*k2.dTheta2 + 2*k3.dTheta2 + k4.dTheta2) * dt/6,
   w2 + (k1.dOmega2 + 2*k2.dOmega2 + 2*k3.dOmega2 + k4.dOmega2) * dt/6)

/-- The derivative function of the double pendulum as a
time-independent vector field on the state
(angle1, angularVelocity1, angle2, angularVelocity2). -/
def deriv (p : Params) (_t : ℝ) (y : ℝ × ℝ × ℝ × ℝ) : ℝ × ℝ × ℝ × ℝ :=
  let d := derivatives p y.1 y.2.1 y.2.2.1 y.2.2.2
  (d.dTheta1, d.dOmega1, d.dTheta2, d.dOmega2)

/-- this.timeStep = 1/60 (constructor constant). -/
def timeStep : ℝ := 1/60

/-- this.maxTrailPoints = 500 (constructor constant). -/
def maxTrailPoints : ℕ := 500

/-- this.maxPhasePoints = 500 (constructor constant). -/
def maxPhasePoints : ℕ := 500

/-- this.maxEnergyPoints = 300 (constructor constant). -/
def maxEnergyPoints : ℕ := 300

/-- this.maxLyapunovPoints = 200 (constructor constant). -/
def maxLyapunovPoints : ℕ := 200

/-- Mutable fields of the DoublePendulum class that take part in the
physics, the Lyapunov estimation and the history buffers. -/
structure State where
  angle1 : ℝ
  angularVelocity1 : ℝ
  angle2 : ℝ
  angularVelocity2 : ℝ
  comparisonAngle1 : ℝ
  comparisonAngularVelocity1 : ℝ
  comparisonAngle2 : ℝ
  comparisonAngularVelocity2 : ℝ
  time : ℝ
  isPaused : Bool
  showComparison : Bool
  centerX : ℝ
  centerY : ℝ
  trailPoints : List (ℝ × ℝ)
  phaseAngle1 : List ℝ
  phaseVelocity1 : List ℝ
  phaseAngle2 : List ℝ
  phaseVelocity2 : List ℝ
  energyTime : List ℝ
  energyKinetic : List ℝ
  energyPotential : List ℝ
  energyTotal : List ℝ
  lyapunovExponent : ℝ
  lyapunovTime : ℝ
  lyapunovDelta0 : ℝ
  lyapunovDelta : ℝ
  lyapunovHistory : List HistPoint
  kineticEnergyVal : ℝ
  potentialEnergyVal : ℝ
  totalEnergyVal : ℝ

/-- DoublePendulum.updatePendulum(dt): the RK4 update followed by the
normalization of both angles. -/
def updatePendulum (p : Params) (s : State) (dt : ℝ) : State :=
  let v := rk4Block p s.angle1 s.angularVelocity1 s.angle2 s.angularVelocity2 dt
  { s with angle1 := normalizeAngle v.1,
           angularVelocity1 := v.2.1,
           angle2 := normalizeAngle v.2.2.1,
           angularVelocity2 := v.2.2.2 }

/-- DoublePendulum.updateComparisonPendulum(dt). -/
def updateComparisonPendulum (p : Params) (s : State) (dt : ℝ) : State :=
  let v := rk4Block p s.comparisonAngle1 s.comparisonAngularVelocity1
    s.comparisonAngle2 s.comparisonAngularVelocity2 dt
  { s with comparisonAngle1 := normalizeAngle v.1,
           comparisonAngularVelocity1 := v.2.1,
           comparisonAngle2 := normalizeAngle v.2.2.1,
           comparisonAngularVelocity2 := v.2.2.2 }

/-- DoublePendulum.calculateLyapunovExponent(dt). -/
def calculateLyapunovExponent (s : State) (dt : ℝ) : State :=
  let lyapTime := s.lyapunovTime + dt
  let dTheta1 := s.angle1 - s.comparisonAngle1
  let dTheta2 := s.angle2 - s.comparisonAngle2
  let dOmega1 := s.angularVelocity1 - s.comparisonAngularVelocity1
  let dOmega2 := s.angularVelocity2 - s.comparisonAngularVelocity2
  let delta := Real.sqrt (dTheta1*dTheta1 + dTheta2*dTheta2 + dOmega1*dOmega1 + dOmega2*dOmega2)
  if 0.01 < delta then
    let lam := Real.log (delta / s.lyapunovDelta0) / lyapTime
    let hist := s.lyapunovHistory ++ [(⟨s.time, lam⟩ : HistPoint)]
    let scale := s.lyapunovDelta0 / delta
    { s with lyapunovDelta := delta,
             lyapunovExponent := lam,
             lyapunovHistory := if maxLyapunovPoints < hist.length then hist.tail else hist,
             comparisonAngle1 := s.angle1 - dTheta1 * scale,
             comparisonAngle2 := s.angle2 - dTheta2 * scale,
             comparisonAngularVelocity1 := s.angularVelocity1 - dOmega1 * scale,
             comparisonAngularVelocity2 := s.angularVelocity2 - dOmega2 * scale,
             lyapunovTime := 0 }
  else
    { s with lyapunovDelta := delta, lyapunovTime := lyapTime }

/-- DoublePendulum.calculateEnergy(): recomputes the kinetic, potential
and total energy from the current state and writes them to the values
record. -/
def calculateEnergy (p : Params) (s : State) : State :=
  let y1 := p.length1 * Real.cos s.angle1
  let y2 := y1 + p.length2 * Real.cos s.angle2
  let v1x := p.length1 * s.angularVelocity1 * Real.cos s.angle1
  let v1y := -(p.length1 * s.angularVelocity1 * Real.sin s.angle1)
  let v2x := v1x + p.length2 * s.angularVelocity2 * Real.cos s.angle2
  let v2y := v1y - p.length2 * s.angularVelocity2 * Real.sin s.angle2
  let kinetic := 0.5 * p.mass1 * (v1x*v1x + v1y*v1y) + 0.5 * p.mass2 * (v2x*v2x + v2y*v2y)
  let potential := p.mass1 * p.gravity * (-y1) + p.mass2 * p.gravity * (-y2)
  { s with kineticEnergyVal := kinetic,
           potentialEnergyVal := potential,
           totalEnergyVal := kinetic + potential }

/-- DoublePendulum.resetComparison(). -/
def resetComparison (s : State) : State :=
  { s with comparisonAngle1 := s.angle1 * 1.001,
           comparisonAngle2 := s.angle2 * 1.001,
           comparisonAngularVelocity1 := s.angularVelocity1,
           comparisonAngularVelocity2 := s.angularVelocity2 }

/-- DoublePendulum.reset(). -/
def reset (p : Params) (ip : InitParams) (s : State) : State :=
  let s1 := { s with angle1 := ip.angle1, angle2 := ip.angle2,
                     angularVelocity1 := ip.angularVelocity1,
                     angularVelocity2 := ip.angularVelocity2,
                     time := 0, trailPoints := [],
                     phaseAngle1 := [], phaseVelocity1 := [],
                     phaseAngle2 := [], phaseVelocity2 := [],
                     energyTime := [], energyKinetic := [],
                     energyPotential := [], energyTotal := [],
                     lyapunovExponent := 0, lyapunovTime := 0,
                     lyapunovDelta := s.lyapunovDelta0, lyapunovHistory := [] }
  let s2 := if s1.showComparison then resetComparison s1 else s1
  calculateEnergy p s2

/-- The trail push of DoublePendulum.update: append the Cartesian
position of the second bob, dropping the oldest point past the bound. -/
def pushTrail (p : Params) (s : State) : State :=
  let x2 := s.centerX + p.length1 * Real.sin s.angle1 + p.length2 * Real.sin s.angle2
  let y2 := s.centerY + p.length1 * Real.cos s.angle1 + p.length2 * Real.cos s.angle2
  let trail := s.trailPoints ++ [(x2, y2)]
  { s with trailPoints := if maxTrailPoints < trail.length then trail.tail else trail }

/-- The phase-space push of DoublePendulum.update: all four phase
buffers are appended and shifted together, keyed on the length of the
angle1 buffer. -/
def pushPhase (s : State) : State :=
  let pa1 := s.phaseAngle1 ++ [s.angle1]
  let pv1 := s.phaseVelocity1 ++ [s.angularVelocity1]
  let pa2 := s.phaseAngle2 ++ [s.angle2]
  let pv2 := s.phaseVelocity2 ++ [s.angularVelocity2]
  if maxPhasePoints < pa1.length then
    { s with phaseAngle1 := pa1.tail, phaseVelocity1 := pv1.tail,
             phaseAngle2 := pa2.tail, phaseVelocity2 := pv2.tail }
  else
    { s with phaseAngle1 := pa1, phaseVelocity1 := pv1,
             phaseAngle2 := pa2, phaseVelocity2 := pv2 }

/-- The energy-data push of DoublePendulum.update: all four energy
buffers are appended and shifted together, keyed on the length of the
time buffer. -/
def pushEnergy (s : State) : State :=
  let et := s.energyTime ++ [s.time]
  let ek := s.energyKinetic ++ [s.kineticEnergyVal]
  let ep := s.energyPotential ++ [s.potentialEnergyVal]
  let eo := s.energyTotal ++ [s.totalEnergyVal]
  if maxEnergyPoints < et.length then
    { s with energyTime := et.tail, energyKinetic := ek.tail,
             energyPotential := ep.tail, energyTotal := eo.tail }
  else
    { s with energyTime := et, energyKinetic := ek,
             energyPotential := ep, energyTotal := eo }

/-- The history-recording tail of DoublePendulum.update: the trail
push, the phase-space push, the energy recomputation and the
energy-data push, in source order. -/
def storeBuffers (p : Params) (s : State) : State :=
  pushEnergy (calculateEnergy p (pushPhase (pushTrail p s)))

set_option linter.unusedVariables false in
/-- DoublePendulum.update(dt): the fixed-step frame update.  The dt
argument is received but the integration always uses the fixed
this.timeStep. -/
def update (p : Params) (s : State) (dt : ℝ) : State :=
  if s.isPaused then s else
  let fixedDt := timeStep
  let s1 := updatePendulum p s fixedDt
  let s2 := if s1.showComparison then
      calculateLyapunovExponent (updateComparisonPendulum p s1 fixedDt) fixedDt
    else s1
  let s3 := { s2 with time := s2.time + fixedDt }
  storeBuffers p s3

/-- The phase-space Euclidean distance between the primary and the
comparison pendulum, as computed inside calculateLyapunovExponent. -/
def phaseDist (s : State) : ℝ :=
  Real.sqrt ((s.angle1 - s.comparisonAngle1) * (s.angle1 - s.comparisonAngle1) +
    (s.angle2 - s.comparisonAngle2) * (s.angle2 - s.comparisonAngle2) +
    (s.angularVelocity1 - s.comparisonAngularVelocity1) *
      (s.angularVelocity1 - s.comparisonAngularVelocity1) +
    (s.angularVelocity2 - s.comparisonAngularVelocity2) *
      (s.angularVelocity2 - s.comparisonAngularVelocity2))

/-- Invariant of the double-pendulum buffers: the trail, the four phase
buffers, the four energy buffers and the Lyapunov history are bounded,
equal-length groups shift together, and the recorded energy time
samples are monotonically increasing and never ahead of the clock. -/
def buffersInv (s : State) : Prop :=
  s.trailPoints.length ≤ maxTrailPoints ∧
  s.phaseAngle1.length ≤ maxPhasePoints ∧
  s.phaseVelocity1.length = s.phaseAngle1.length ∧
  s.phaseAngle2.length = s.phaseAngle1.length ∧
  s.phaseVelocity2.length = s.phaseAngle1.length ∧
  s.energyTime.length ≤ maxEnergyPoints ∧
  s.energyKinetic.length = s.energyTime.length ∧
  s.energyPotential.length = s.energyTime.length ∧
  s.energyTotal.length = s.energyTime.length ∧
  s.lyapunovHistory.length ≤ maxLyapunovPoints ∧
  List.Chain' (· ≤ ·) s.energyTime ∧
  ∀ x ∈ s.energyTime, x ≤ s.time

/-- The DoublePendulum constructor defaults for the physics fields. -/
def defaultParams : Params :=
  { gravity := 9.81, damping := 0.01, length1 := 150, length2 := 150,
    mass1 := 10, mass2 := 10 }

/-- A parameter record inside the declared UI ranges with the damping
slider at its minimum 0. -/
def cParams : Params :=
  { gravity := 9.81, damping := 0, length1 := 150, length2 := 150,
    mass1 := 10, mass2 := 10 }

/-- A concrete pendulum state: both links hanging straight down with
angular velocity 2 rad/s on both links. -/
def cState : State :=
  { angle1 := 0, angularVelocity1 := 2, angle2 := 0, angularVelocity2 := 2,
    comparisonAngle1 := 0, comparisonAngularVelocity1 := 0,
    comparisonAngle2 := 0, comparisonAngularVelocity2 := 0,
    time := 0, isPaused := false, showComparison := false,
    centerX := 0, centerY := 0,
    trailPoints := [],
    phaseAngle1 := [], phaseVelocity1 := [], phaseAngle2 := [], phaseVelocity2 := [],
    energyTime := [], energyKinetic := [], energyPotential := [], energyTotal := [],
    lyapunovExponent := 0, lyapunovTime := 0,
    lyapunovDelta0 := 0.001, lyapunovDelta := 0.001,
    lyapunovHistory := [],
    kineticEnergyVal := 0, potentialEnergyVal := 0, totalEnergyVal := 0 }

/-- A concrete pendulum state whose comparison pendulum coincides with
the primary one (phase distance zero). -/
def coincident : State :=
  { cState with angularVelocity1 := 0, angularVelocity2 := 0 }

end DP

namespace NB

/-- The per-body integrated state of OrbitalMotion:
((x, y), (vx, vy)). -/
abbrev Vec4 : Type := (ℝ × ℝ) × (ℝ × ℝ)

/-- The speed of light constant used by the relativistic correction. -/
def lightSpeed : ℝ := 299792458

/-- The acceleration loop of OrbitalMotion.updatePhysics: the sum over
all other bodies j of the pairwise gravitational pull on body i,
ax += forceMag dx / (dist mass_i), with the optional relativistic
correction factor 1 + 3 G m_j / (c^2 dist). -/
def accelOn {n : ℕ} (G : ℝ) (relativistic : Bool) (masses : Fin n → ℝ)
    (pos : Fin n → ℝ × ℝ) (i : Fin n) : ℝ × ℝ :=
  ∑ j in Finset.univ.erase i,
    (let dx := (pos j).1 - (pos i).1
     let dy := (pos j).2 - (pos i).2
     let distSq := dx*dx + dy*dy
     let dist := Real.sqrt distSq
     let forceMag0 := G * masses i * masses j / distSq
     let forceMag := if relativistic then
         forceMag0 * (1 + 3 * G * masses j / (lightSpeed * lightSpeed * dist))
       else forceMag0
     (forceMag * dx / (dist * masses i), forceMag * dy / (dist * masses i)))

/-- One k-stage of OrbitalMotion.updatePhysics: the state rate at the
given intermediate state, k.dx = vx, k.dvx = the acceleration sum. -/
def kStage {n : ℕ} (G : ℝ) (relativistic : Bool) (masses : Fin n → ℝ)
    (y : Fin n → Vec4) : Fin n → Vec4 :=
  fun i => ((y i).2, accelOn G relativistic masses (fun j => (y j).1) i)

/-- The temp arrays of OrbitalMotion.updatePhysics:
tempX[i] = x_i + k[i].dx c and so on, with c = dt/2 or dt. -/
def stageAdvance {n : ℕ} (y k : Fin n → Vec4) (c : ℝ) : Fin n → Vec4 :=
  fun i => (((y i).1.1 + (k i).1.1 * c, (y i).1.2 + (k i).1.2 * c),
            ((y i).2.1 + (k i).2.1 * c, (y i).2.2 + (k i).2.2 * c))

/-- The derivative function of the N-body system. -/
def derivFn {n : ℕ} (G : ℝ) (relativistic : Bool) (masses : Fin n → ℝ)
    (_t : ℝ) (y : Fin n → Vec4) : Fin n → Vec4 :=
  kStage G relativistic masses y

/-- The integration part (steps 1 to 5) of OrbitalMotion.updatePhysics
with no body being dragged: four k-stages and the weighted combination
y += dt/6 (k1 + 2 k2 + 2 k3 + k4) applied to every body. -/
def integrateStep {n : ℕ} (G : ℝ) (relativistic : Bool) (masses : Fin n → ℝ)
    (y : Fin n → Vec4) (dt : ℝ) : Fin n → Vec4 :=
  let k1 := kStage G relativistic masses y
  let k2 := kStage G relativistic masses (stageAdvance y k1 (dt/2))
  let k3 := kStage G relativistic masses (stageAdvance y k2 (dt/2))
  let k4 := kStage G relativistic masses (stageAdvance y k3 dt)
  fun i =>
    (((y i).1.1 + dt/6 * ((k1 i).1.1 + 2*(k2 i).1.1 + 2*(k3 i).1.1 + (k4 i).1.1),
      (y i).1.2 + dt/6 * ((k1 i).1.2 + 2*(k2 i).1.2 + 2*(k3 i).1.2 + (k4 i).1.2)),
     ((y i).2.1 + dt/6 * ((k1 i).2.1 + 2*(k2 i).2.1 + 2*(k3 i).2.1 + (k4 i).2.1),
      (y i).2.2 + dt/6 * ((k1 i).2.2 + 2*(k2 i).2.2 + 2*(k3 i).2.2 + (k4 i).2.2)))

/-- A body record of OrbitalMotion (the fields taking part in the
collision handling). -/
structure OBody where
  x : ℝ
  y : ℝ
  vx : ℝ
  vy : ℝ
  mass : ℝ
  radius : ℝ

/-- A placeholder body used for out-of-range list indexing (never
reached on the in-range accesses performed by the loops). -/
def dummyBody : OBody := ⟨0, 0, 0, 0, 0, 0⟩

/-- The center distance computed inside OrbitalMotion.handleCollisions:
sqrt(dx^2 + dy^2) with dx = b2.x - b1.x, dy = b2.y - b1.y. -/
def bodyDist (b1 b2 : OBody) : ℝ :=
  Real.sqrt ((b2.x - b1.x) * (b2.x - b1.x) + (b2.y - b1.y) * (b2.y - b1.y))

/-- The merged body built by OrbitalMotion.handleCollisions: momentum
conserving velocity, mass-weighted position, summed mass and cube-root
volume radius. -/
def mergeBodies (b1 b2 : OBody) : OBody :=
  let totalMass := b1.mass + b2.mass
  { x := (b1.x * b1.mass + b2.x * b2.mass) / totalMass,
    y := (b1.y * b1.mass + b2.y * b2.mass) / totalMass,
    vx := (b1.vx * b1.mass + b2.vx * b2.mass) / totalMass,
    vy := (b1.vy * b1.mass + b2.vy * b2.mass) / totalMass,
    mass := totalMass,
    radius := (b1.radius ^ (3 : ℕ) + b2.radius ^ (3 : ℕ)) ^ ((1 : ℝ) / 3) }

/-- The inner j-loop of OrbitalMotion.handleCollisions: starting at
index j, find the first not-yet-collided body overlapping body i. -/
def findCollision (bodies : List OBody) (collided : List ℕ) (i j : ℕ) : Option ℕ :=
  if j < bodies.length then
    if j ∈ collided then findCollision bodies collided i (j+1)
    else if bodyDist (bodies.getD i dummyBody) (bodies.getD j dummyBody) <
        (bodies.getD i dummyBody).radius + (bodies.getD j dummyBody).radius then
      some j
    else findCollision bodies collided i (j+1)
  else none
termination_by bodies.length - j

/-- The outer i-loop of OrbitalMotion.handleCollisions: on a collision
the merged body is appended to the (growing) body list, both indices
are marked collided, and the inner loop is left; the loop ends when i
reaches the current list length.  The fuel argument dominates the
number of iterations. -/
def collideLoop : ℕ → ℕ → List OBody → List ℕ → List OBody × List ℕ
  | 0, _, bodies, collided => (bodies, collided)
  | fuel+1, i, bodies, collided =>
    if i < bodies.length then
      if i ∈ collided then collideLoop fuel (i+1) bodies collided
      else
        match findCollision bodies collided i (i+1) with
        | some j => collideLoop fuel (i+1)
            (bodies ++ [mergeBodies (bodies.getD i dummyBody) (bodies.getD j dummyBody)])
            (collided ++ [i, j])
        | none => collideLoop fuel (i+1) bodies collided
    else (bodies, collided)

/-- The final filter of OrbitalMotion.handleCollisions:
bodies.filter((body, index) => !collided.has(index)), written through
the index list. -/
def removeCollided (bodies : List OBody) (collided : List ℕ) : List OBody :=
  ((List.range bodies.length).filter (fun i => i ∉ collided)).map
    (fun i => bodies.getD i dummyBody)

/-- OrbitalMotion.handleCollisions(): the collision scan followed by the
removal of the collided bodies (filter on the marked indices). -/
def handleCollisions (bodies : List OBody) : List OBody :=
  let r := collideLoop (2 * bodies.length + 1) 0 bodies []
  removeCollided r.1 r.2

/-- The guard at the end of OrbitalMotion.updatePhysics: the collision
pass runs only when this.collisionsEnabled holds. -/
def runCollisions (collisionsEnabled : Bool) (bodies : List OBody) : List OBody :=
  if collisionsEnabled then handleCollisions bodies else bodies

/-- A concrete unit body at the origin. -/
def bodyA : OBody := ⟨0, 0, 0, 0, 1, 1⟩

/-- A concrete unit body overlapping bodyA. -/
def bodyB : OBody := ⟨1, 0, 0, 0, 1, 1⟩

end NB

namespace WF

/-- Constructor fields of the WaveFunction class that
initializeWavePacket reads. -/
structure PacketParams where
  gridSize : ℕ
  packetCenter : ℝ
  packetWidth : ℝ
  packetMomentum : ℝ
  hbar : ℝ

/-- this.dx = 0.1 (constructor constant): the spatial grid spacing. -/
def dx : ℝ := 0.1

/-- The WaveFunction constructor defaults. -/
def defaults : PacketParams :=
  { gridSize := 512, packetCenter := 0.2, packetWidth := 0.05,
    packetMomentum := 20, hbar := 1 }

/-- centerIdx = floor(packetCenter * gridSize). -/
def centerIdx (q : PacketParams) : ℤ := ⌊q.packetCenter * q.gridSize⌋

/-- sigma = packetWidth * gridSize. -/
def sigma (q : PacketParams) : ℝ := q.packetWidth * q.gridSize

/-- k = packetMomentum / hbar. -/
def waveK (q : PacketParams) : ℝ := q.packetMomentum / q.hbar

/-- norm = 1 / sqrt(sigma * sqrt(pi)). -/
def packetNorm (q : PacketParams) : ℝ :=
  1 / Real.sqrt (sigma q * Real.sqrt Real.pi)

/-- The Gaussian envelope at grid index i (x = i - centerIdx):
norm * exp(-x^2 / (2 sigma^2)). -/
def gaussianAt (q : PacketParams) (i : ℕ) : ℝ :=
  packetNorm q * Real.exp (-(((i : ℝ) - centerIdx q) * ((i : ℝ) - centerIdx q)) /
    (2 * sigma q * sigma q))

/-- realPart[i] = gaussian * cos(k x) before normalization. -/
def realPart0 (q : PacketParams) (i : ℕ) : ℝ :=
  gaussianAt q i * Real.cos (waveK q * ((i : ℝ) - centerIdx q))

/-- imagPart[i] = gaussian * sin(k x) before normalization. -/
def imagPart0 (q : PacketParams) (i : ℕ) : ℝ :=
  gaussianAt q i * Real.sin (waveK q * ((i : ℝ) - centerIdx q))

/-- The total probability summed by normalizeWaveFunction:
sum over the grid of realPart[i]^2 + imagPart[i]^2 (no dx factor). -/
def totalProb (q : PacketParams) (re im : ℕ → ℝ) : ℝ :=
  ∑ i in Finset.range q.gridSize, (re i ^ 2 + im i ^ 2)

/-- WaveFunction.normalizeWaveFunction(): scale both sample arrays by
1 / sqrt(totalProb). -/
def normalizeWaveFunction (q : PacketParams) (re im : ℕ → ℝ) : (ℕ → ℝ) × (ℕ → ℝ) :=
  let normFactor := 1 / Real.sqrt (totalProb q re im)
  (fun i => re i * normFactor, fun i => im i * normFactor)

/-- WaveFunction.initializeWavePacket(): build the Gaussian packet with
momentum phase and renormalize it. -/
def initializeWavePacket (q : PacketParams) : (ℕ → ℝ) × (ℕ → ℝ) :=
  normalizeWaveFunction q (realPart0 q) (imagPart0 q)

end WF

/-! ## Helper theorems about the embedded operations -/

namespace HO

theorem updatePhysics_eq_rk4 (p : Params) (t x v dt : ℝ) :
    updatePhysics p t x v dt =
      ((rk4 (deriv p) t dt (x, v)).1, (rk4 (deriv p) t dt (x, v)).2, t + dt) := by
  simp only [updatePhysics, rk4, deriv, Prod.smul_mk, Prod.mk_add_mk, smul_eq_mul,
    Prod.fst_add, Prod.snd_add, Prod.smul_fst, Prod.smul_snd, Prod.mk.injEq]
  refine ⟨?_, ?_, trivial⟩ <;> ring_nf

theorem ho_reset_idempotent (p : Params) (s : State) :
    reset p (reset p s) = reset p s := by
  simp only [reset]

end HO

namespace Lorenz

set_option maxHeartbeats 2000000 in
theorem stepXYZ_eq_rk4 (s : State) (x y z dt t : ℝ) :
    stepXYZ s x y z dt = rk4 (lderiv s) t dt (x, y, z) := by
  simp only [stepXYZ, rk4, lderiv, Prod.smul_mk, Prod.mk_add_mk, smul_eq_mul]
  refine Prod.ext ?_ (Prod.ext ?_ ?_) <;>
    simp only [Prod.fst_add, Prod.snd_add, Prod.smul_fst, Prod.smul_snd, smul_eq_mul] <;>
    ring_nf

theorem updateTrajectory_eq_rk4 (s : State) (dt t : ℝ) :
    ((updateTrajectory s dt).x, (updateTrajectory s dt).y, (updateTrajectory s dt).z) =
      rk4 (lderiv s) t dt (s.x, s.y, s.z) := by
  rw [← stepXYZ_eq_rk4 s s.x s.y s.z dt t]
  rfl

set_option maxHeartbeats 1000000 in
theorem lorenz_reset_idempotent (p : Params) (s : State) :
    reset p (reset p s) = reset p s := by
  cases hb : s.showComparison <;>
    simp only [reset, resetComparison, hb, Bool.false_eq_true, if_false, if_true,
      List.length_nil, List.nil_append, lt_self_iff_false, List.length_append,
      List.length_cons, List.length_singleton, Nat.lt_irrefl, zero_lt_one, ite_true,
      ite_false]

end Lorenz

namespace DP

set_option maxHeartbeats 2000000 in
theorem rk4Block_eq_rk4 (p : Params) (a1 w1 a2 w2 dt t : ℝ) :
    rk4Block p a1 w1 a2 w2 dt = rk4 (deriv p) t dt (a1, w1, a2, w2) := by
  simp only [rk4Block, rk4, deriv, Prod.smul_mk, Prod.mk_add_mk, smul_eq_mul]
  refine Prod.ext ?_ (Prod.ext ?_ (Prod.ext ?_ ?_)) <;>
    simp only [Prod.fst_add, Prod.snd_add, Prod.smul_fst, Prod.smul_snd, smul_eq_mul] <;>
    ring_nf

theorem dp_reset_idempotent (p : Params) (ip : InitParams) (s : State) :
    reset p ip (reset p ip s) = reset p ip s := by
  cases hb : s.showComparison <;>
    simp only [reset, resetComparison, calculateEnergy, hb, Bool.false_eq_true,
      if_false, if_true, ite_true, ite_false]

end DP

namespace NB

theorem stageAdvance_eq {n : ℕ} (y k : Fin n → Vec4) (c : ℝ) :
    stageAdvance y k c = y + c • k := by
  funext i
  refine Prod.ext (Prod.ext ?_ ?_) (Prod.ext ?_ ?_) <;>
    simp only [stageAdvance, Pi.add_apply, Pi.smul_apply, Prod.fst_add, Prod.snd_add,
      Prod.smul_fst, Prod.smul_snd, smul_eq_mul] <;> ring

theorem integrateStep_eq_rk4 {n : ℕ} (G : ℝ) (relativistic : Bool)
    (masses : Fin n → ℝ) (y : Fin n → Vec4) (dt t : ℝ) :
    integrateStep G relativistic masses y dt =
      rk4 (derivFn G relativistic masses) t dt y := by
  funext i
  refine Prod.ext (Prod.ext ?_ ?_) (Prod.ext ?_ ?_) <;>
    simp only [integrateStep, rk4, derivFn, stageAdvance_eq, Pi.add_apply, Pi.smul_apply,
      Prod.fst_add, Prod.snd_add, Prod.smul_fst, Prod.smul_snd, smul_eq_mul] <;> ring

end NB

namespace WF

theorem totalProb_initial (q : PacketParams) :
    totalProb q (realPart0 q) (imagPart0 q) =
      ∑ i in Finset.range q.gridSize, gaussianAt q i ^ 2 := by
  unfold totalProb realPart0 imagPart0
  refine Finset.sum_congr rfl fun i _ => ?_
  have h := Real.sin_sq_add_cos_sq (waveK q * ((i : ℝ) - centerIdx q))
  ring_nf
  ring_nf at h
  nlinarith [h]

theorem totalProb_initial_pos (q : PacketParams) (hn : 0 < q.gridSize)
    (hs : 0 < sigma q) :
    0 < totalProb q (realPart0 q) (imagPart0 q) := by
  rw [totalProb_initial q]
  have hpos : ∀ i ∈ Finset.range q.gridSize, 0 < gaussianAt q i ^ 2 := by
    intro i _
    have hnorm : 0 < packetNorm q := by
      have hpi : 0 < Real.sqrt Real.pi := Real.sqrt_pos.mpr Real.pi_pos
      have : 0 < Real.sqrt (sigma q * Real.sqrt Real.pi) :=
        Real.sqrt_pos.mpr (by positivity)
      exact one_div_pos.mpr this
    have hexp : 0 < Real.exp (-(((i : ℝ) - centerIdx q) * ((i : ℝ) - centerIdx q)) /
        (2 * sigma q * sigma q)) := Real.exp_pos _
    have : 0 < gaussianAt q i := mul_pos hnorm hexp
    positivity
  exact Finset.sum_pos hpos (Finset.nonempty_range_iff.mpr (by omega))

/-- After initializeWavePacket the unweighted total probability is
exactly one (in exact real arithmetic). -/
theorem totalProb_after_init (q : PacketParams) (hn : 0 < q.gridSize)
    (hs : 0 < sigma q) :
    totalProb q (initializeWavePacket q).1 (initializeWavePacket q).2 = 1 := by
  unfold initializeWavePacket normalizeWaveFunction
  set S := totalProb q (realPart0 q) (imagPart0 q) with hSdef
  have hS : 0 < S := totalProb_initial_pos q hn hs
  have hSsum : S = ∑ i in Finset.range q.gridSize,
      (realPart0 q i ^ 2 + imagPart0 q i ^ 2) := by
    rw [hSdef]; rfl
  have hexpand : ∀ i ∈ Finset.range q.gridSize,
      (realPart0 q i * (1 / Real.sqrt S)) ^ 2 + (imagPart0 q i * (1 / Real.sqrt S)) ^ 2 =
        (realPart0 q i ^ 2 + imagPart0 q i ^ 2) * (1 / Real.sqrt S) ^ 2 := by
    intro i _
    ring
  simp only [totalProb]
  rw [Finset.sum_congr rfl hexpand, ← Finset.sum_mul, ← hSsum, div_pow, one_pow,
    Real.sq_sqrt (le_of_lt hS), mul_one_div, div_self (ne_of_gt hS)]

end WF

theorem pushBounded_length_le {α : Type} (m : ℕ) (l : List α) (x : α)
    (h : l.length ≤ m) : (pushBounded m l x).length ≤ m := by
  rw [pushBounded]
  by_cases hc : m < (l ++ [x]).length
  · rw [if_pos hc]
    simp only [List.length_tail, List.length_append, List.length_singleton]
    omega
  · rw [if_neg hc]
    simp only [List.length_append, List.length_singleton, not_lt] at hc ⊢
    omega

theorem mem_pushBounded {α : Type} {m : ℕ} {l : List α} {x y : α}
    (hy : y ∈ pushBounded m l x) : y ∈ l ∨ y = x := by
  by_cases hc : m < (l ++ [x]).length
  · rw [pushBounded, if_pos hc] at hy
    simpa using List.mem_of_mem_tail hy
  · rw [pushBounded, if_neg hc] at hy
    simpa using hy

theorem chain'_pushBounded (m : ℕ) (l : List ℝ) (x : ℝ)
    (hc : List.Chain' (· ≤ ·) l) (hx : ∀ y ∈ l, y ≤ x) :
    List.Chain' (· ≤ ·) (pushBounded m l x) := by
  have happ : List.Chain' (· ≤ ·) (l ++ [x]) := by
    rw [List.chain'_append]
    refine ⟨hc, List.chain'_singleton x, ?_⟩
    intro a ha b hb
    simp only [List.head?_cons, Option.mem_def, Option.some.injEq] at hb
    subst hb
    obtain ⟨h, rfl⟩ := List.mem_getLast?_eq_getLast ha
    exact hx _ (List.getLast_mem h)
  by_cases hcc : m < (l ++ [x]).length
  · rw [pushBounded, if_pos hcc]
    exact happ.tail
  · rw [pushBounded, if_neg hcc]
    exact happ

theorem map_pushBounded {α β : Type} (f : α → β) (m : ℕ) (l : List α) (x : α) :
    (pushBounded m l x).map f = pushBounded m (l.map f) (f x) := by
  have hlen : (l.map f ++ [f x]).length = (l ++ [x]).length := by
    simp
  by_cases hc : m < (l ++ [x]).length
  · rw [pushBounded, if_pos hc, pushBounded, if_pos (by rw [hlen]; exact hc)]
    simp [List.map_tail]
  · rw [pushBounded, if_neg hc, pushBounded, if_neg (by rw [hlen]; exact hc)]
    simp

theorem pushBounded_length_pos {α : Type} (m : ℕ) (l : List α) (x : α) :
    l.length ≤ (pushBounded m l x).length := by
  rw [pushBounded]
  by_cases hc : m < (l ++ [x]).length
  · rw [if_pos hc]
    simp only [List.length_tail, List.length_append, List.length_singleton]
    omega
  · rw [if_neg hc]
    simp only [List.length_append, List.length_singleton]
    omega

/-- Renormalizing a three-component separation vector to length q
(scale factor q divided by the current distance) produces a point at
distance exactly q. -/
theorem renormalized_dist3 (a1 b1 a2 b2 a3 b3 q D : ℝ) (h0 : 0 ≤ q)
    (hD : D = Real.sqrt ((a1 - b1) * (a1 - b1) + (a2 - b2) * (a2 - b2) +
      (a3 - b3) * (a3 - b3)))
    (h : 0.01 < D) :
    Real.sqrt
      ((a1 - (a1 - (a1 - b1) * (q / D))) * (a1 - (a1 - (a1 - b1) * (q / D))) +
       (a2 - (a2 - (a2 - b2) * (q / D))) * (a2 - (a2 - (a2 - b2) * (q / D))) +
       (a3 - (a3 - (a3 - b3) * (q / D))) * (a3 - (a3 - (a3 - b3) * (q / D)))) = q := by
  have hS : (0:ℝ) ≤ (a1 - b1) * (a1 - b1) + (a2 - b2) * (a2 - b2) +
      (a3 - b3) * (a3 - b3) :=
    add_nonneg (add_nonneg (mul_self_nonneg _) (mul_self_nonneg _)) (mul_self_nonneg _)
  have hDpos : 0 < D := lt_trans (by norm_num) h
  have hDne : D ≠ 0 := ne_of_gt hDpos
  have hDsq : D * D = (a1 - b1) * (a1 - b1) + (a2 - b2) * (a2 - b2) +
      (a3 - b3) * (a3 - b3) := by
    rw [hD]
    exact Real.mul_self_sqrt hS
  conv_rhs => rw [← Real.sqrt_sq h0]
  congr 1
  field_simp
  linear_combination (-(q ^ 2)) * hDsq

/-- Renormalizing a four-component separation vector to length q
produces a point at distance exactly q. -/
theorem renormalized_dist4 (a1 b1 a2 b2 a3 b3 a4 b4 q D : ℝ) (h0 : 0 ≤ q)
    (hD : D = Real.sqrt ((a1 - b1) * (a1 - b1) + (a2 - b2) * (a2 - b2) +
      (a3 - b3) * (a3 - b3) + (a4 - b4) * (a4 - b4)))
    (h : 0.01 < D) :
    Real.sqrt
      ((a1 - (a1 - (a1 - b1) * (q / D))) * (a1 - (a1 - (a1 - b1) * (q / D))) +
       (a2 - (a2 - (a2 - b2) * (q / D))) * (a2 - (a2 - (a2 - b2) * (q / D))) +
       (a3 - (a3 - (a3 - b3) * (q / D))) * (a3 - (a3 - (a3 - b3) * (q / D))) +
       (a4 - (a4 - (a4 - b4) * (q / D))) * (a4 - (a4 - (a4 - b4) * (q / D)))) = q := by
  have hS : (0:ℝ) ≤ (a1 - b1) * (a1 - b1) + (a2 - b2) * (a2 - b2) +
      (a3 - b3) * (a3 - b3) + (a4 - b4) * (a4 - b4) :=
    add_nonneg (add_nonneg (add_nonneg (mul_self_nonneg _) (mul_self_nonneg _))
      (mul_self_nonneg _)) (mul_self_nonneg _)
  have hDpos : 0 < D := lt_trans (by norm_num) h
  have hDne : D ≠ 0 := ne_of_gt hDpos
  have hDsq : D * D = (a1 - b1) * (a1 - b1) + (a2 - b2) * (a2 - b2) +
      (a3 - b3) * (a3 - b3) + (a4 - b4) * (a4 - b4) := by
    rw [hD]
    exact Real.mul_self_sqrt hS
  conv_rhs => rw [← Real.sqrt_sq h0]
  congr 1
  field_simp
  linear_combination (-(q ^ 2)) * hDsq

namespace DP

theorem derivatives_dTheta1 (p : Params) (a b c d : ℝ) :
    (derivatives p a b c d).dTheta1 = b := rfl

theorem derivatives_dTheta2 (p : Params) (a b c d : ℝ) :
    (derivatives p a b c d).dTheta2 = d := rfl

/-- For aligned configurations theta1 = theta2 with zero damping the
equations of motion collapse: the first angular acceleration is
-(g/l1) sin theta and the second vanishes. -/
theorem dp_den1_aligned (p : Params) (θ : ℝ) :
    den1 p θ θ = p.mass1 * p.length1 := by
  unfold den1
  rw [sub_self, Real.cos_zero]
  ring

theorem dp_den2_aligned (p : Params) (hl : p.length1 ≠ 0) (θ : ℝ) :
    den2 p θ θ = p.mass1 * p.length2 := by
  unfold den2
  rw [dp_den1_aligned]
  field_simp
  ring

theorem derivatives_aligned (p : Params) (hd : p.damping = 0)
    (hm : p.mass1 ≠ 0) (hl : p.length1 ≠ 0) (θ w1 w2 : ℝ) :
    derivatives p θ w1 θ w2 =
      ⟨w1, -(p.gravity / p.length1) * Real.sin θ, w2, 0⟩ := by
  simp only [derivatives, hd, dp_den1_aligned, dp_den2_aligned p hl, sub_self,
    Real.sin_zero, Real.cos_zero, Deriv.mk.injEq, eq_self_iff_true, true_and, and_true]
  constructor
  · rw [div_eq_iff (mul_ne_zero hm hl)]
    field_simp
    ring
  · rw [div_eq_zero_iff]
    left
    ring

/-- The derivatives of the concrete in-range parameter record. -/
theorem cparams_aligned (θ w1 w2 : ℝ) :
    derivatives cParams θ w1 θ w2 = ⟨w1, -(9.81 / 150) * Real.sin θ, w2, 0⟩ := by
  have h := derivatives_aligned cParams rfl (by norm_num [cParams]) (by norm_num [cParams]) θ w1 w2
  simpa [cParams] using h

set_option maxHeartbeats 1000000 in
/-- Symbolic evaluation of the RK4 block at the concrete hanging state
with angular velocity 2 on both links and dt = 2. -/
theorem cstate_block_eval :
    (rk4Block cParams 0 2 0 2 2).1 = 4 - 4/3 * (9.81 / 150 * Real.sin 2) := by
  simp only [rk4Block, cparams_aligned, derivatives_dTheta1, derivatives_dTheta2,
    Real.sin_zero, mul_zero, zero_mul, zero_div, add_zero, zero_add, neg_zero]
  norm_num
  ring_nf

/-- The normalizeAngle map subtracts one full turn on (pi, 3 pi). -/
theorem normalizeAngle_shift (v : ℝ) (h1 : Real.pi < v) (h2 : v < 3 * Real.pi) :
    normalizeAngle v = v - 2 * Real.pi := by
  have hb : (0:ℝ) < 2 * Real.pi := by positivity
  have h0 : (0:ℝ) ≤ (v + Real.pi) / (2 * Real.pi) := by
    apply div_nonneg _ (le_of_lt hb)
    linarith [Real.pi_pos]
  have hfloor : ⌊(v + Real.pi) / (2 * Real.pi)⌋ = 1 := by
    rw [Int.floor_eq_iff]
    constructor
    · rw [le_div_iff hb]
      push_cast
      linarith
    · rw [div_lt_iff hb]
      push_cast
      linarith
  unfold normalizeAngle jsRem
  rw [if_pos h0, hfloor]
  push_cast
  ring

set_option linter.unusedVariables false in
/-- DP.update ignores its dt argument entirely (it is received but only
this.timeStep drives the integration), so the result is the same for
any two dt values; the proof is definitional. -/
theorem dp_update_constant_in_dt (p : Params) (s : State) (dt1 dt2 : ℝ) :
    update p s dt1 = update p s dt2 := rfl

/-- DoublePendulum.updatePendulum is the RK4 step followed by the angle
normalization, stated through the generic rk4 integrator. -/
theorem dp_updatePendulum_eq (p : Params) (s : State) (dt t : ℝ) :
    updatePendulum p s dt =
      { s with
        angle1 := normalizeAngle ((rk4 (deriv p) t dt
          (s.angle1, s.angularVelocity1, s.angle2, s.angularVelocity2)).1),
        angularVelocity1 := (rk4 (deriv p) t dt
          (s.angle1, s.angularVelocity1, s.angle2, s.angularVelocity2)).2.1,
        angle2 := normalizeAngle ((rk4 (deriv p) t dt
          (s.angle1, s.angularVelocity1, s.angle2, s.angularVelocity2)).2.2.1),
        angularVelocity2 := (rk4 (deriv p) t dt
          (s.angle1, s.angularVelocity1, s.angle2, s.angularVelocity2)).2.2.2 } := by
  unfold updatePendulum
  rw [rk4Block_eq_rk4 p s.angle1 s.angularVelocity1 s.angle2 s.angularVelocity2 dt t]

/-- Below the threshold the Lyapunov update only advances the elapsed
time and records the measured distance. -/
theorem lyap_below (s : State) (dt : ℝ) (h : ¬ 0.01 < phaseDist s) :
    calculateLyapunovExponent s dt =
      { s with lyapunovDelta := phaseDist s,
               lyapunovTime := s.lyapunovTime + dt } := by
  unfold phaseDist at h ⊢
  simp only [calculateLyapunovExponent]
  rw [if_neg h]

/-- Above the threshold the Lyapunov update computes the exponent,
pushes it onto the bounded history, renormalizes the shadow state and
resets the elapsed time. -/
theorem lyap_above (s : State) (dt : ℝ) (h : 0.01 < phaseDist s) :
    calculateLyapunovExponent s dt =
      { s with
        lyapunovDelta := phaseDist s,
        lyapunovExponent := Real.log (phaseDist s / s.lyapunovDelta0) /
          (s.lyapunovTime + dt),
        lyapunovHistory := pushBounded maxLyapunovPoints s.lyapunovHistory
          ⟨s.time, Real.log (phaseDist s / s.lyapunovDelta0) / (s.lyapunovTime + dt)⟩,
        comparisonAngle1 := s.angle1 -
          (s.angle1 - s.comparisonAngle1) * (s.lyapunovDelta0 / phaseDist s),
        comparisonAngle2 := s.angle2 -
          (s.angle2 - s.comparisonAngle2) * (s.lyapunovDelta0 / phaseDist s),
        comparisonAngularVelocity1 := s.angularVelocity1 -
          (s.angularVelocity1 - s.comparisonAngularVelocity1) *
            (s.lyapunovDelta0 / phaseDist s),
        comparisonAngularVelocity2 := s.angularVelocity2 -
          (s.angularVelocity2 - s.comparisonAngularVelocity2) *
            (s.lyapunovDelta0 / phaseDist s),
        lyapunovTime := 0 } := by
  unfold phaseDist at h ⊢
  simp only [calculateLyapunovExponent, pushBounded]
  rw [if_pos h]

/-- After an above-threshold renormalization the shadow pendulum sits
at distance exactly lyapunovDelta0 from the primary one. -/
theorem lyap_renormalized (s : State) (dt : ℝ) (h : 0.01 < phaseDist s)
    (h0 : 0 ≤ s.lyapunovDelta0) :
    phaseDist (calculateLyapunovExponent s dt) = s.lyapunovDelta0 := by
  rw [lyap_above s dt h]
  unfold phaseDist at h ⊢
  dsimp only
  exact renormalized_dist4 _ _ _ _ _ _ _ _ _ _ h0 rfl h

end DP

namespace Lorenz

/-- Below the threshold the Lorenz Lyapunov update only advances the
elapsed time and records the measured distance. -/
theorem lorenz_lyap_below (s : State) (dt : ℝ) (h : ¬ 0.01 < phaseDist s) :
    calculateLyapunovExponent s dt =
      { s with lyapunovDelta := phaseDist s,
               lyapunovTime := s.lyapunovTime + dt } := by
  unfold phaseDist at h ⊢
  simp only [calculateLyapunovExponent]
  rw [if_neg h]

/-- Above the threshold the Lorenz Lyapunov update computes the
exponent, pushes it onto the bounded history, renormalizes the shadow
state and resets the elapsed time. -/
theorem lorenz_lyap_above (s : State) (dt : ℝ) (h : 0.01 < phaseDist s) :
    calculateLyapunovExponent s dt =
      { s with
        lyapunovDelta := phaseDist s,
        lyapunovExponent := Real.log (phaseDist s / s.lyapunovDelta0) /
          (s.lyapunovTime + dt),
        lyapunovHistory := pushBounded maxLyapunovPoints s.lyapunovHistory
          ⟨s.time, Real.log (phaseDist s / s.lyapunovDelta0) / (s.lyapunovTime + dt)⟩,
        comparisonX := s.x - (s.x - s.comparisonX) * (s.lyapunovDelta0 / phaseDist s),
        comparisonY := s.y - (s.y - s.comparisonY) * (s.lyapunovDelta0 / phaseDist s),
        comparisonZ := s.z - (s.z - s.comparisonZ) * (s.lyapunovDelta0 / phaseDist s),
        lyapunovTime := 0 } := by
  unfold phaseDist at h ⊢
  simp only [calculateLyapunovExponent, pushBounded]
  rw [if_pos h]

/-- After an above-threshold renormalization the Lorenz shadow state
sits at distance exactly lyapunovDelta0 from the primary one. -/
theorem lorenz_lyap_renormalized (s : State) (dt : ℝ) (h : 0.01 < phaseDist s)
    (h0 : 0 ≤ s.lyapunovDelta0) :
    phaseDist (calculateLyapunovExponent s dt) = s.lyapunovDelta0 := by
  rw [lorenz_lyap_above s dt h]
  unfold phaseDist at h ⊢
  dsimp only
  exact renormalized_dist3 _ _ _ _ _ _ _ _ h0 rfl h

end Lorenz

/-! ## Buffer invariants -/

namespace HO

/-- The timeData buffer after storeGraphData is exactly the bounded
FIFO push of the current clock value. -/
theorem ho_store_timeData (p : Params) (s : State) :
    (storeGraphData p s).timeData = pushBounded maxDataPoints s.timeData s.time := by
  simp only [storeGraphData, pushBounded]
  by_cases hc : maxDataPoints < (s.timeData ++ [s.time]).length
  · rw [if_pos hc, if_pos hc]
  · rw [if_neg hc, if_neg hc]

/-- HarmonicOscillator.storeGraphData preserves the graph-buffer
invariant. -/
theorem ho_store_inv (p : Params) (s : State) (h : buffersInv s) :
    buffersInv (storeGraphData p s) := by
  obtain ⟨h1, h2, h3, h4, h5, h6, h7, h8, h9⟩ := h
  have hchain : List.Chain' (· ≤ ·) (s.timeData ++ [s.time]) := by
    rw [List.chain'_append]
    refine ⟨h8, List.chain'_singleton _, ?_⟩
    intro a ha b hb
    simp only [List.head?_cons, Option.mem_def, Option.some.injEq] at hb
    subst hb
    obtain ⟨hne, rfl⟩ := List.mem_getLast?_eq_getLast ha
    exact h9 _ (List.getLast_mem hne)
  simp only [buffersInv, storeGraphData]
  by_cases hc : maxDataPoints < (s.timeData ++ [s.time]).length
  · rw [if_pos hc]
    refine ⟨?_, ?_, ?_, ?_, ?_, ?_, ?_, ?_, ?_⟩
    · simp only [List.length_tail, List.length_append, List.length_singleton] at hc ⊢
      omega
    · simp only [List.length_tail, List.length_append, List.length_singleton]; omega
    · simp only [List.length_tail, List.length_append, List.length_singleton]; omega
    · simp only [List.length_tail, List.length_append, List.length_singleton]; omega
    · simp only [List.length_tail, List.length_append, List.length_singleton]; omega
    · simp only [List.length_tail, List.length_append, List.length_singleton]; omega
    · simp only [List.length_tail, List.length_append, List.length_singleton]; omega
    · exact hchain.tail
    · intro x hx
      have hx2 : x ∈ s.timeData ++ [s.time] := List.mem_of_mem_tail hx
      rcases List.mem_append.mp hx2 with hm | hm
      · exact h9 x hm
      · rw [List.mem_singleton] at hm
        exact le_of_eq hm
  · rw [if_neg hc]
    refine ⟨?_, ?_, ?_, ?_, ?_, ?_, ?_, hchain, ?_⟩
    · simp only [List.length_append, List.length_singleton] at hc ⊢; omega
    · simp only [List.length_append, List.length_singleton]; omega
    · simp only [List.length_append, List.length_singleton]; omega
    · simp only [List.length_append, List.length_singleton]; omega
    · simp only [List.length_append, List.length_singleton]; omega
    · simp only [List.length_append, List.length_singleton]; omega
    · simp only [List.length_append, List.length_singleton]; omega
    · intro x hx
      rcases List.mem_append.mp hx with hm | hm
      · exact h9 x hm
      · rw [List.mem_singleton] at hm
        exact le_of_eq hm

/-- HarmonicOscillator.update preserves the graph-buffer invariant for
any nonnegative time step. -/
theorem ho_update_inv (p : Params) (s : State) (dt : ℝ) (hdt : 0 ≤ dt)
    (h : buffersInv s) : buffersInv (update p s dt) := by
  by_cases hd : s.isDragging = true
  · simp only [update, if_pos hd]
    exact h
  · simp only [update, if_neg hd]
    apply ho_store_inv
    obtain ⟨h1, h2, h3, h4, h5, h6, h7, h8, h9⟩ := h
    refine ⟨h1, h2, h3, h4, h5, h6, h7, h8, ?_⟩
    intro x hx
    have hxs : x ≤ s.time := h9 x hx
    show x ≤ s.time + dt
    linarith

/-- When not dragging, the timeData buffer after update is the bounded
FIFO push of the advanced clock value. -/
theorem ho_update_timeData (p : Params) (s : State) (dt : ℝ)
    (hd : s.isDragging = false) :
    (update p s dt).timeData = pushBounded maxDataPoints s.timeData (s.time + dt) := by
  have hd2 : ¬ s.isDragging = true := by rw [hd]; exact Bool.false_ne_true
  simp only [update, if_neg hd2]
  exact ho_store_timeData p _

end HO

namespace Lorenz

/-- The trajectory buffer after updateTrajectory is exactly the bounded
FIFO push of the new sample stamped with the pre-step clock. -/
theorem lorenz_traj_push (s : State) (dt : ℝ) :
    (updateTrajectory s dt).trajectory =
      pushBounded maxTrajectoryPoints s.trajectory
        ⟨(stepXYZ s s.x s.y s.z dt).1, (stepXYZ s s.x s.y s.z dt).2.1,
          (stepXYZ s s.x s.y s.z dt).2.2, s.time⟩ := by
  simp only [updateTrajectory, pushBounded]

/-- LorenzAttractor.updateTrajectory preserves the trajectory-buffer
invariant. -/
theorem lorenz_traj_inv_step (s : State) (dt : ℝ) (h : trajInv s) :
    trajInv (updateTrajectory s dt) := by
  obtain ⟨h1, h2, h3⟩ := h
  have hp := lorenz_traj_push s dt
  refine ⟨?_, ?_, ?_⟩
  · rw [hp]
    exact pushBounded_length_le _ _ _ h1
  · rw [hp, map_pushBounded]
    apply chain'_pushBounded
    · exact h2
    · intro y hy
      obtain ⟨q, hq, rfl⟩ := List.mem_map.mp hy
      exact h3 q hq
  · intro q hq
    rw [hp] at hq
    rcases mem_pushBounded hq with hm | rfl
    · exact h3 q hm
    · exact le_refl s.time

end Lorenz

namespace DP

/-- The double-pendulum buffer invariant transports across any state
change that keeps all buffers and does not move the clock backwards. -/
theorem dp_buffers_mono (s t : State)
    (e1 : t.trailPoints = s.trailPoints)
    (e2 : t.phaseAngle1 = s.phaseAngle1) (e3 : t.phaseVelocity1 = s.phaseVelocity1)
    (e4 : t.phaseAngle2 = s.phaseAngle2) (e5 : t.phaseVelocity2 = s.phaseVelocity2)
    (e6 : t.energyTime = s.energyTime) (e7 : t.energyKinetic = s.energyKinetic)
    (e8 : t.energyPotential = s.energyPotential) (e9 : t.energyTotal = s.energyTotal)
    (e10 : t.lyapunovHistory = s.lyapunovHistory)
    (e11 : s.time ≤ t.time) (h : buffersInv s) : buffersInv t := by
  obtain ⟨h1, h2, h3, h4, h5, h6, h7, h8, h9, h10, h11, h12⟩ := h
  unfold buffersInv
  rw [e1, e2, e3, e4, e5, e6, e7, e8, e9, e10]
  exact ⟨h1, h2, h3, h4, h5, h6, h7, h8, h9, h10, h11,
    fun x hx => le_trans (h12 x hx) e11⟩

/-- The trail push preserves the double-pendulum buffer invariant. -/
theorem dp_pushTrail_inv (p : Params) (s : State) (h : buffersInv s) :
    buffersInv (pushTrail p s) := by
  obtain ⟨h1, h2, h3, h4, h5, h6, h7, h8, h9, h10, h11, h12⟩ := h
  refine ⟨?_, h2, h3, h4, h5, h6, h7, h8, h9, h10, h11, h12⟩
  exact pushBounded_length_le _ _ _ h1

/-- The phase-space push preserves the double-pendulum buffer
invariant. -/
theorem dp_pushPhase_inv (s : State) (h : buffersInv s) :
    buffersInv (pushPhase s) := by
  obtain ⟨h1, h2, h3, h4, h5, h6, h7, h8, h9, h10, h11, h12⟩ := h
  simp only [buffersInv, pushPhase]
  by_cases hc : maxPhasePoints < (s.phaseAngle1 ++ [s.angle1]).length
  · rw [if_pos hc]
    refine ⟨h1, ?_, ?_, ?_, ?_, h6, h7, h8, h9, h10, h11, h12⟩
    · simp only [List.length_tail, List.length_append, List.length_singleton] at hc ⊢
      omega
    · simp only [List.length_tail, List.length_append, List.length_singleton]; omega
    · simp only [List.length_tail, List.length_append, List.length_singleton]; omega
    · simp only [List.length_tail, List.length_append, List.length_singleton]; omega
  · rw [if_neg hc]
    refine ⟨h1, ?_, ?_, ?_, ?_, h6, h7, h8, h9, h10, h11, h12⟩
    · simp only [List.length_append, List.length_singleton] at hc ⊢; omega
    · simp only [List.length_append, List.length_singleton]; omega
    · simp only [List.length_append, List.length_singleton]; omega
    · simp only [List.length_append, List.length_singleton]; omega

/-- The energy-data push preserves the double-pendulum buffer
invariant. -/
theorem dp_pushEnergy_inv (s : State) (h : buffersInv s) :
    buffersInv (pushEnergy s) := by
  obtain ⟨h1, h2, h3, h4, h5, h6, h7, h8, h9, h10, h11, h12⟩ := h
  have hchain : List.Chain' (· ≤ ·) (s.energyTime ++ [s.time]) := by
    rw [List.chain'_append]
    refine ⟨h11, List.chain'_singleton _, ?_⟩
    intro a ha b hb
    simp only [List.head?_cons, Option.mem_def, Option.some.injEq] at hb
    subst hb
    obtain ⟨hne, rfl⟩ := List.mem_getLast?_eq_getLast ha
    exact h12 _ (List.getLast_mem hne)
  simp only [buffersInv, pushEnergy]
  by_cases hc : maxEnergyPoints < (s.energyTime ++ [s.time]).length
  · rw [if_pos hc]
    refine ⟨h1, h2, h3, h4, h5, ?_, ?_, ?_, ?_, h10, ?_, ?_⟩
    · simp only [List.length_tail, List.length_append, List.length_singleton] at hc ⊢
      omega
    · simp only [List.length_tail, List.length_append, List.length_singleton]; omega
    · simp only [List.length_tail, List.length_append, List.length_singleton]; omega
    · simp only [List.length_tail, List.length_append, List.length_singleton]; omega
    · exact hchain.tail
    · intro x hx
      have hx2 : x ∈ s.energyTime ++ [s.time] := List.mem_of_mem_tail hx
      rcases List.mem_append.mp hx2 with hm | hm
      · exact h12 x hm
      · rw [List.mem_singleton] at hm
        exact le_of_eq hm
  · rw [if_neg hc]
    refine ⟨h1, h2, h3, h4, h5, ?_, ?_, ?_, ?_, h10, hchain, ?_⟩
    · simp only [List.length_append, List.length_singleton] at hc ⊢; omega
    · simp only [List.length_append, List.length_singleton]; omega
    · simp only [List.length_append, List.length_singleton]; omega
    · simp only [List.length_append, List.length_singleton]; omega
    · intro x hx
      rcases List.mem_append.mp hx with hm | hm
      · exact h12 x hm
      · rw [List.mem_singleton] at hm
        exact le_of_eq hm

/-- The energy recomputation does not touch the buffers or the clock. -/
theorem dp_calcEnergy_inv (p : Params) (s : State) (h : buffersInv s) :
    buffersInv (calculateEnergy p s) := by
  obtain ⟨h1, h2, h3, h4, h5, h6, h7, h8, h9, h10, h11, h12⟩ := h
  exact ⟨h1, h2, h3, h4, h5, h6, h7, h8, h9, h10, h11, h12⟩

/-- The double-pendulum Lyapunov update preserves the buffer invariant:
it can only push onto the bounded Lyapunov history. -/
theorem dp_lyap_inv (s : State) (dt : ℝ) (h : buffersInv s) :
    buffersInv (calculateLyapunovExponent s dt) := by
  by_cases hc : 0.01 < phaseDist s
  · rw [lyap_above s dt hc]
    obtain ⟨h1, h2, h3, h4, h5, h6, h7, h8, h9, h10, h11, h12⟩ := h
    exact ⟨h1, h2, h3, h4, h5, h6, h7, h8, h9,
      pushBounded_length_le _ _ _ h10, h11, h12⟩
  · rw [lyap_below s dt hc]
    obtain ⟨h1, h2, h3, h4, h5, h6, h7, h8, h9, h10, h11, h12⟩ := h
    exact ⟨h1, h2, h3, h4, h5, h6, h7, h8, h9, h10, h11, h12⟩

/-- The complete history-recording fragment of DoublePendulum.update
preserves the buffer invariant. -/
theorem dp_store_inv (p : Params) (s : State) (h : buffersInv s) :
    buffersInv (storeBuffers p s) :=
  dp_pushEnergy_inv _ (dp_calcEnergy_inv p _ (dp_pushPhase_inv _ (dp_pushTrail_inv p s h)))

/-- DoublePendulum.update preserves the buffer invariant. -/
theorem dp_update_inv (p : Params) (s : State) (dt : ℝ) (h : buffersInv s) :
    buffersInv (update p s dt) := by
  by_cases hp : s.isPaused = true
  · simp only [update, if_pos hp]
    exact h
  · simp only [update, if_neg hp]
    apply dp_store_inv
    have hstep : (0:ℝ) ≤ timeStep := by norm_num [timeStep]
    have hs1 : buffersInv (updatePendulum p s timeStep) := by
      obtain ⟨h1, h2, h3, h4, h5, h6, h7, h8, h9, h10, h11, h12⟩ := h
      exact ⟨h1, h2, h3, h4, h5, h6, h7, h8, h9, h10, h11, h12⟩
    have hX : buffersInv (if (updatePendulum p s timeStep).showComparison = true then
        calculateLyapunovExponent
          (updateComparisonPendulum p (updatePendulum p s timeStep) timeStep) timeStep
      else updatePendulum p s timeStep) := by
      by_cases hsc : (updatePendulum p s timeStep).showComparison = true
      · rw [if_pos hsc]
        apply dp_lyap_inv
        obtain ⟨h1, h2, h3, h4, h5, h6, h7, h8, h9, h10, h11, h12⟩ := hs1
        exact ⟨h1, h2, h3, h4, h5, h6, h7, h8, h9, h10, h11, h12⟩
      · rw [if_neg hsc]
        exact hs1
    refine dp_buffers_mono (if (updatePendulum p s timeStep).showComparison = true then
        calculateLyapunovExponent
          (updateComparisonPendulum p (updatePendulum p s timeStep) timeStep) timeStep
      else updatePendulum p s timeStep) _ rfl rfl rfl rfl rfl rfl rfl rfl rfl rfl ?_ hX
    exact le_add_of_nonneg_right hstep

end DP

/-! ## Claims -/

/-- C1 (amended): one integration step of the spring-mass oscillator,
the Lorenz attractor and the N-body integrator equals the standard
four-stage RK4 scheme with that system derivative function; the double
pendulum step equals the RK4 scheme followed by normalizing both
angles into [-pi, pi). -/
theorem rk4_agreement_all_integrators :
    (∀ (p : HO.Params) (t x v dt : ℝ),
      HO.updatePhysics p t x v dt =
        ((rk4 (HO.deriv p) t dt (x, v)).1, (rk4 (HO.deriv p) t dt (x, v)).2, t + dt)) ∧
    (∀ (s : Lorenz.State) (dt t : ℝ),
      ((Lorenz.updateTrajectory s dt).x, (Lorenz.updateTrajectory s dt).y,
        (Lorenz.updateTrajectory s dt).z) = rk4 (Lorenz.lderiv s) t dt (s.x, s.y, s.z)) ∧
    (∀ (n : ℕ) (G : ℝ) (rel : Bool) (masses : Fin n → ℝ)
        (y : Fin n → NB.Vec4) (dt t : ℝ),
      NB.integrateStep G rel masses y dt = rk4 (NB.derivFn G rel masses) t dt y) ∧
    (∀ (p : DP.Params) (s : DP.State) (dt t : ℝ),
      DP.updatePendulum p s dt =
        { s with
          angle1 := DP.normalizeAngle ((rk4 (DP.deriv p) t dt
            (s.angle1, s.angularVelocity1, s.angle2, s.angularVelocity2)).1),
          angularVelocity1 := (rk4 (DP.deriv p) t dt
            (s.angle1, s.angularVelocity1, s.angle2, s.angularVelocity2)).2.1,
          angle2 := DP.normalizeAngle ((rk4 (DP.deriv p) t dt
            (s.angle1, s.angularVelocity1, s.angle2, s.angularVelocity2)).2.2.1),
          angularVelocity2 := (rk4 (DP.deriv p) t dt
            (s.angle1, s.angularVelocity1, s.angle2, s.angularVelocity2)).2.2.2 }) :=
  ⟨fun p t x v dt => HO.updatePhysics_eq_rk4 p t x v dt,
   fun s dt t => Lorenz.updateTrajectory_eq_rk4 s dt t,
   fun n G rel masses y dt t => NB.integrateStep_eq_rk4 G rel masses y dt t,
   fun p s dt t => DP.dp_updatePendulum_eq p s dt t⟩

/-- C1 counterexample: with both pendulum links hanging straight down,
angular velocity 2 rad/s on both links, zero damping and dt = 2, the
new angle1 produced by DoublePendulum.updatePendulum differs from the
plain RK4 value (the code additionally wraps the angle by a full
turn). -/
theorem dp_step_differs_from_rk4 :
    (DP.updatePendulum DP.cParams DP.cState 2).angle1 ≠
      (rk4 (DP.deriv DP.cParams) 0 2 ((0:ℝ), (2:ℝ), (0:ℝ), (2:ℝ))).1 := by
  have hb : (DP.rk4Block DP.cParams 0 2 0 2 2).1 =
      4 - 4/3 * (9.81 / 150 * Real.sin 2) := DP.cstate_block_eval
  have hr : (rk4 (DP.deriv DP.cParams) 0 2 ((0:ℝ), (2:ℝ), (0:ℝ), (2:ℝ))).1 =
      4 - 4/3 * (9.81 / 150 * Real.sin 2) := by
    rw [← DP.rk4Block_eq_rk4]
    exact hb
  have hangle : (DP.updatePendulum DP.cParams DP.cState 2).angle1 =
      DP.normalizeAngle ((DP.rk4Block DP.cParams 0 2 0 2 2).1) := rfl
  have hs1 : Real.sin 2 ≤ 1 := Real.sin_le_one 2
  have hs2 : -1 ≤ Real.sin 2 := Real.neg_one_le_sin 2
  have hpi : Real.pi < 4 - 4/3 * (9.81 / 150 * Real.sin 2) := by
    nlinarith [Real.pi_lt_d2]
  have h3pi : 4 - 4/3 * (9.81 / 150 * Real.sin 2) < 3 * Real.pi := by
    nlinarith [Real.pi_gt_three]
  have hnorm := DP.normalizeAngle_shift _ hpi h3pi
  rw [hangle, hb, hnorm, hr]
  intro h
  have hpos := Real.pi_pos
  linarith [sub_eq_self.mp h]

/-- C2 (amended): immediately after WaveFunction.initializeWavePacket
with the constructor defaults the unweighted total probability
sum of realPart^2 + imagPart^2 equals 1 exactly (the code normalizes
the sum without the dx factor); consequently the dx-weighted total is
dx = 0.1, not 1. -/
theorem wave_packet_unit_norm :
    WF.totalProb WF.defaults (WF.initializeWavePacket WF.defaults).1
        (WF.initializeWavePacket WF.defaults).2 = 1 ∧
    WF.totalProb WF.defaults (WF.initializeWavePacket WF.defaults).1
        (WF.initializeWavePacket WF.defaults).2 * WF.dx = 1 / 10 := by
  have h := WF.totalProb_after_init WF.defaults
    (by norm_num [WF.defaults]) (by norm_num [WF.sigma, WF.defaults])
  refine ⟨h, ?_⟩
  rw [h]
  norm_num [WF.dx]

/-- C2 counterexample: the dx-weighted total probability right after
initializeWavePacket is 0.1, which is not within 1e-6 of 1. -/
theorem dx_weighted_norm_not_one :
    ¬ (|WF.totalProb WF.defaults (WF.initializeWavePacket WF.defaults).1
        (WF.initializeWavePacket WF.defaults).2 * WF.dx - 1| ≤ 1 / 1000000) := by
  have h := WF.totalProb_after_init WF.defaults
    (by norm_num [WF.defaults]) (by norm_num [WF.sigma, WF.defaults])
  rw [h]
  rw [abs_le]
  norm_num [WF.dx]

/-- C3 (amended): the parameter onChange path stores the raw received
value without clamping; in particular setting the spring-mass damping
to -5 makes the internally used damping equal -5, not the declared
minimum 0 (range enforcement lives only in the external HTML slider
element). -/
theorem damping_onchange_stores_raw (p : HO.Params) (v : ℝ) :
    (HO.dampingOnChange p v).damping = v := rfl

/-- C3 counterexample: setting damping to -5 through the onChange
handler does not clamp it to the declared minimum 0. -/
theorem damping_minus_five_not_clamped :
    ¬ ((HO.dampingOnChange HO.defaultParams (-5)).damping = 0) := by
  norm_num [HO.dampingOnChange]

/-- C4: two LorenzAttractor instances built with identical parameters
and the default initial state (0.1, 0, 0), stepped with the same
sequence of at most 1000 fixed time steps, produce identical states and
identical trajectories (the step function is pure, hence
deterministic). -/
theorem lorenz_run_deterministic (a b : Lorenz.State) (sigma rho beta : ℝ)
    (ha : a = Lorenz.initInstance sigma rho beta)
    (hb : b = Lorenz.initInstance sigma rho beta)
    (dts : List ℝ) (hlen : dts.length ≤ 1000) :
    Lorenz.run a dts = Lorenz.run b dts ∧
    (Lorenz.run a dts).trajectory = (Lorenz.run b dts).trajectory := by
  subst ha
  subst hb
  exact ⟨rfl, rfl⟩

theorem lorenz_run_deterministic_witness :
    Lorenz.initInstance 10 28 (8/3) = Lorenz.initInstance 10 28 (8/3) ∧
    ([0.005, 0.005, 0.005] : List ℝ).length ≤ 1000 ∧
    Lorenz.run (Lorenz.initInstance 10 28 (8/3)) [0.005, 0.005, 0.005] =
      Lorenz.run (Lorenz.initInstance 10 28 (8/3)) [0.005, 0.005, 0.005] :=
  ⟨rfl, by norm_num,
    (lorenz_run_deterministic _ _ 10 28 (8/3) rfl rfl _ (by norm_num)).1⟩

/-- C6: the denominator den1 of the double-pendulum derivative function
is bounded below by 50 for every configuration once the mechanical
parameters sit inside their declared UI ranges (mass1 at least 1,
length1 at least 50), den2 is positive, and the derivative function is
exactly the pair of quotients with these never-vanishing denominators,
so it always returns finite real values. -/
theorem dp_denominators_bounded (p : DP.Params) (θ1 ω1 θ2 ω2 : ℝ)
    (hm1 : 1 ≤ p.mass1) (hm2 : 0 ≤ p.mass2)
    (hl1 : 50 ≤ p.length1) (hl2 : 0 < p.length2) :
    50 ≤ DP.den1 p θ1 θ2 ∧ 0 < DP.den2 p θ1 θ2 ∧
    DP.derivatives p θ1 ω1 θ2 ω2 = ⟨ω1,
      (p.mass2 * p.length1 * ω1 * ω1 * Real.sin (θ2 - θ1) * Real.cos (θ2 - θ1) +
       p.mass2 * p.gravity * Real.sin θ2 * Real.cos (θ2 - θ1) +
       p.mass2 * p.length2 * ω2 * ω2 * Real.sin (θ2 - θ1) -
       (p.mass1 + p.mass2) * p.gravity * Real.sin θ1 -
       p.damping * ω1 * DP.den1 p θ1 θ2) / DP.den1 p θ1 θ2, ω2,
      (-(p.mass2 * p.length2 * ω2 * ω2 * Real.sin (θ2 - θ1) * Real.cos (θ2 - θ1)) +
       (p.mass1 + p.mass2) * p.gravity * Real.sin θ1 * Real.cos (θ2 - θ1) -
       (p.mass1 + p.mass2) * p.length1 * ω1 * ω1 * Real.sin (θ2 - θ1) -
       (p.mass1 + p.mass2) * p.gravity * Real.sin θ2 -
       p.damping * ω2 * DP.den2 p θ1 θ2) / DP.den2 p θ1 θ2⟩ := by
  have hl1' : (0:ℝ) ≤ p.length1 := by linarith
  have hsin2 : Real.sin (θ2 - θ1) ^ 2 + Real.cos (θ2 - θ1) ^ 2 = 1 :=
    Real.sin_sq_add_cos_sq _
  have hden1 : DP.den1 p θ1 θ2 =
      p.mass1 * p.length1 + p.mass2 * p.length1 * Real.sin (θ2 - θ1) ^ 2 := by
    unfold DP.den1
    linear_combination (-(p.mass2 * p.length1)) * hsin2
  have h1 : 50 ≤ DP.den1 p θ1 θ2 := by
    rw [hden1]
    nlinarith [mul_nonneg (mul_nonneg hm2 hl1') (sq_nonneg (Real.sin (θ2 - θ1)))]
  refine ⟨h1, ?_, rfl⟩
  unfold DP.den2
  exact mul_pos (div_pos hl2 (by linarith)) (by linarith)

theorem dp_denominators_bounded_witness :
    (1:ℝ) ≤ DP.defaultParams.mass1 ∧ (0:ℝ) ≤ DP.defaultParams.mass2 ∧
    (50:ℝ) ≤ DP.defaultParams.length1 ∧ (0:ℝ) < DP.defaultParams.length2 ∧
    50 ≤ DP.den1 DP.defaultParams 0 0 ∧ 0 < DP.den2 DP.defaultParams 0 0 :=
  ⟨by norm_num [DP.defaultParams], by norm_num [DP.defaultParams],
   by norm_num [DP.defaultParams], by norm_num [DP.defaultParams],
   (dp_denominators_bounded DP.defaultParams 0 0 0 0
     (by norm_num [DP.defaultParams]) (by norm_num [DP.defaultParams])
     (by norm_num [DP.defaultParams]) (by norm_num [DP.defaultParams])).1,
   (dp_denominators_bounded DP.defaultParams 0 0 0 0
     (by norm_num [DP.defaultParams]) (by norm_num [DP.defaultParams])
     (by norm_num [DP.defaultParams]) (by norm_num [DP.defaultParams])).2.1⟩

/-- C9: for the spring-mass oscillator, the Lorenz attractor and the
double pendulum, calling reset twice in a row produces exactly the same
state (state vector restored from the stored initial parameter values,
time zero, buffers holding only their initial contents) as calling it
once. -/
theorem reset_twice_eq_reset_once :
    (∀ (p : HO.Params) (s : HO.State), HO.reset p (HO.reset p s) = HO.reset p s) ∧
    (∀ (p : Lorenz.Params) (s : Lorenz.State),
      Lorenz.reset p (Lorenz.reset p s) = Lorenz.reset p s) ∧
    (∀ (p : DP.Params) (ip : DP.InitParams) (s : DP.State),
      DP.reset p ip (DP.reset p ip s) = DP.reset p ip s) :=
  ⟨fun p s => HO.ho_reset_idempotent p s,
   fun p s => Lorenz.lorenz_reset_idempotent p s,
   fun p ip s => DP.dp_reset_idempotent p ip s⟩

/-- C10: when the double pendulum is not paused, the state produced by
update(dt) does not depend on the dt argument at all: the call
integrates one fixed step of length timeStep and never reads dt. -/
theorem dp_update_independent_of_dt (p : DP.Params) (s : DP.State)
    (h : s.isPaused = false) (dt1 dt2 : ℝ) :
    DP.update p s dt1 = DP.update p s dt2 :=
  DP.dp_update_constant_in_dt p s dt1 dt2

theorem dp_update_independent_of_dt_witness :
    DP.cState.isPaused = false ∧
    DP.update DP.cParams DP.cState 1 = DP.update DP.cParams DP.cState 2 :=
  ⟨rfl, dp_update_independent_of_dt DP.cParams DP.cState rfl 1 2⟩

/-- C7: each call of the Lyapunov estimator (double pendulum and
Lorenz) computes the phase-space Euclidean distance between the primary
and shadow state; exactly when it exceeds 0.01 it sets the exponent to
ln(distance/initialOffset)/elapsedTime, appends it to the bounded
history, renormalizes the shadow back to distance exactly initialOffset
along the separation direction and resets the elapsed time; otherwise
it leaves both the shadow and the recorded exponent unchanged. -/
theorem lyapunov_estimator_characterization :
    (∀ (s : DP.State) (dt : ℝ), 0 ≤ s.lyapunovDelta0 →
      (¬ 0.01 < DP.phaseDist s →
        DP.calculateLyapunovExponent s dt =
          { s with lyapunovDelta := DP.phaseDist s,
                   lyapunovTime := s.lyapunovTime + dt }) ∧
      (0.01 < DP.phaseDist s →
        DP.calculateLyapunovExponent s dt =
          { s with
            lyapunovDelta := DP.phaseDist s,
            lyapunovExponent := Real.log (DP.phaseDist s / s.lyapunovDelta0) /
              (s.lyapunovTime + dt),
            lyapunovHistory := pushBounded DP.maxLyapunovPoints s.lyapunovHistory
              ⟨s.time, Real.log (DP.phaseDist s / s.lyapunovDelta0) /
                (s.lyapunovTime + dt)⟩,
            comparisonAngle1 := s.angle1 -
              (s.angle1 - s.comparisonAngle1) * (s.lyapunovDelta0 / DP.phaseDist s),
            comparisonAngle2 := s.angle2 -
              (s.angle2 - s.comparisonAngle2) * (s.lyapunovDelta0 / DP.phaseDist s),
            comparisonAngularVelocity1 := s.angularVelocity1 -
              (s.angularVelocity1 - s.comparisonAngularVelocity1) *
                (s.lyapunovDelta0 / DP.phaseDist s),
            comparisonAngularVelocity2 := s.angularVelocity2 -
              (s.angularVelocity2 - s.comparisonAngularVelocity2) *
                (s.lyapunovDelta0 / DP.phaseDist s),
            lyapunovTime := 0 } ∧
        DP.phaseDist (DP.calculateLyapunovExponent s dt) = s.lyapunovDelta0)) ∧
    (∀ (s : Lorenz.State) (dt : ℝ), 0 ≤ s.lyapunovDelta0 →
      (¬ 0.01 < Lorenz.phaseDist s →
        Lorenz.calculateLyapunovExponent s dt =
          { s with lyapunovDelta := Lorenz.phaseDist s,
                   lyapunovTime := s.lyapunovTime + dt }) ∧
      (0.01 < Lorenz.phaseDist s →
        Lorenz.calculateLyapunovExponent s dt =
          { s with
            lyapunovDelta := Lorenz.phaseDist s,
            lyapunovExponent := Real.log (Lorenz.phaseDist s / s.lyapunovDelta0) /
              (s.lyapunovTime + dt),
            lyapunovHistory := pushBounded Lorenz.maxLyapunovPoints s.lyapunovHistory
              ⟨s.time, Real.log (Lorenz.phaseDist s / s.lyapunovDelta0) /
                (s.lyapunovTime + dt)⟩,
            comparisonX := s.x - (s.x - s.comparisonX) *
              (s.lyapunovDelta0 / Lorenz.phaseDist s),
            comparisonY := s.y - (s.y - s.comparisonY) *
              (s.lyapunovDelta0 / Lorenz.phaseDist s),
            comparisonZ := s.z - (s.z - s.comparisonZ) *
              (s.lyapunovDelta0 / Lorenz.phaseDist s),
            lyapunovTime := 0 } ∧
        Lorenz.phaseDist (Lorenz.calculateLyapunovExponent s dt) = s.lyapunovDelta0)) := by
  constructor
  · intro s dt h0
    exact ⟨fun h => DP.lyap_below s dt h,
      fun h => ⟨DP.lyap_above s dt h, DP.lyap_renormalized s dt h h0⟩⟩
  · intro s dt h0
    exact ⟨fun h => Lorenz.lorenz_lyap_below s dt h,
      fun h => ⟨Lorenz.lorenz_lyap_above s dt h,
        Lorenz.lorenz_lyap_renormalized s dt h h0⟩⟩

theorem lyapunov_estimator_characterization_witness :
    (0:ℝ) ≤ DP.coincident.lyapunovDelta0 ∧
    ¬ (0.01:ℝ) < DP.phaseDist DP.coincident ∧
    DP.calculateLyapunovExponent DP.coincident 1 =
      { DP.coincident with
        lyapunovDelta := DP.phaseDist DP.coincident,
        lyapunovTime := DP.coincident.lyapunovTime + 1 } ∧
    (0:ℝ) ≤ Lorenz.coincidentState.lyapunovDelta0 ∧
    ¬ (0.01:ℝ) < Lorenz.phaseDist Lorenz.coincidentState ∧
    Lorenz.calculateLyapunovExponent Lorenz.coincidentState 1 =
      { Lorenz.coincidentState with
        lyapunovDelta := Lorenz.phaseDist Lorenz.coincidentState,
        lyapunovTime := Lorenz.coincidentState.lyapunovTime + 1 } := by
  have hdp : DP.phaseDist DP.coincident = 0 := by
    norm_num [DP.phaseDist, DP.coincident, DP.cState, Real.sqrt_zero]
  have hlz : Lorenz.phaseDist Lorenz.coincidentState = 0 := by
    norm_num [Lorenz.phaseDist, Lorenz.coincidentState, Real.sqrt_zero]
  have hdp2 : ¬ (0.01:ℝ) < DP.phaseDist DP.coincident := by
    rw [hdp]
    norm_num
  have hlz2 : ¬ (0.01:ℝ) < Lorenz.phaseDist Lorenz.coincidentState := by
    rw [hlz]
    norm_num
  refine ⟨by norm_num [DP.coincident, DP.cState], hdp2, ?_,
    by norm_num [Lorenz.coincidentState], hlz2, ?_⟩
  · exact (lyapunov_estimator_characterization.1 DP.coincident 1
      (by norm_num [DP.coincident, DP.cState])).1 hdp2
  · exact (lyapunov_estimator_characterization.2 Lorenz.coincidentState 1
      (by norm_num [Lorenz.coincidentState])).1 hlz2

namespace NB

/-- With exactly two overlapping bodies the collision pass replaces
them by the single merged body. -/
theorem two_body_collide (b1 b2 : OBody)
    (hov : bodyDist b1 b2 < b1.radius + b2.radius) :
    handleCollisions [b1, b2] = [mergeBodies b1 b2] := by
  have e0 : findCollision [b1, b2] [] 0 1 = some 1 := by
    rw [findCollision]
    simp [List.getD, hov]
  have e1 : ∀ m : OBody, findCollision [b1, b2, m] [0, 1] 2 3 = none := by
    intro m
    rw [findCollision]
    simp
  have hstep : ∀ (f i : ℕ) (bodies : List OBody) (collided : List ℕ),
      collideLoop (f+1) i bodies collided =
        (if i < bodies.length then
          (if i ∈ collided then collideLoop f (i+1) bodies collided
           else
            match findCollision bodies collided i (i+1) with
            | some j => collideLoop f (i+1)
                (bodies ++ [mergeBodies (bodies.getD i dummyBody) (bodies.getD j dummyBody)])
                (collided ++ [i, j])
            | none => collideLoop f (i+1) bodies collided)
         else (bodies, collided)) := fun f i bodies collided => rfl
  have e2 : collideLoop 5 0 [b1, b2] [] = ([b1, b2, mergeBodies b1 b2], [0, 1]) := by
    rw [show (5:ℕ) = 4 + 1 from rfl, hstep]
    simp only [List.length_cons, List.length_nil, List.not_mem_nil, if_false, ite_false]
    rw [if_pos (by norm_num), e0]
    simp only [List.getD_cons_zero, List.getD_cons_succ, List.cons_append,
      List.nil_append, Nat.zero_add]
    rw [show (4:ℕ) = 3 + 1 from rfl, hstep]
    rw [if_pos (by norm_num : 1 < ([b1, b2, mergeBodies b1 b2] : List OBody).length)]
    rw [if_pos (by norm_num : 1 ∈ ([0, 1] : List ℕ))]
    norm_num only
    rw [show (3:ℕ) = 2 + 1 from rfl, hstep]
    rw [if_pos (by norm_num : 2 < ([b1, b2, mergeBodies b1 b2] : List OBody).length)]
    rw [if_neg (by norm_num : ¬ (2:ℕ) ∈ ([0, 1] : List ℕ)), e1]
    norm_num only
    rw [show (2:ℕ) = 1 + 1 from rfl, hstep]
    rw [if_neg (by norm_num : ¬ 3 < ([b1, b2, mergeBodies b1 b2] : List OBody).length)]
  unfold handleCollisions
  rw [show 2 * ([b1, b2] : List OBody).length + 1 = 5 from by norm_num, e2]
  unfold removeCollided
  norm_num [List.range_succ, List.getD_cons_zero, List.getD_cons_succ]

end NB

/-- C5: when collisions are enabled and two bodies overlap (center
distance below the sum of the radii), the collision pass replaces the
two bodies by a single body of summed mass, momentum-conserving
velocity and cube-root-of-summed-volume radius (position the
mass-weighted average). -/
theorem two_body_overlap_merges (b1 b2 : NB.OBody)
    (hov : NB.bodyDist b1 b2 < b1.radius + b2.radius) :
    NB.runCollisions true [b1, b2] =
      [{ x := (b1.x * b1.mass + b2.x * b2.mass) / (b1.mass + b2.mass),
         y := (b1.y * b1.mass + b2.y * b2.mass) / (b1.mass + b2.mass),
         vx := (b1.vx * b1.mass + b2.vx * b2.mass) / (b1.mass + b2.mass),
         vy := (b1.vy * b1.mass + b2.vy * b2.mass) / (b1.mass + b2.mass),
         mass := b1.mass + b2.mass,
         radius := (b1.radius ^ (3 : ℕ) + b2.radius ^ (3 : ℕ)) ^ ((1 : ℝ) / 3) }] := by
  have h := NB.two_body_collide b1 b2 hov
  simp only [NB.runCollisions, if_true]
  rw [h]
  rfl

theorem two_body_overlap_merges_witness :
    NB.bodyDist NB.bodyA NB.bodyB < NB.bodyA.radius + NB.bodyB.radius ∧
    NB.runCollisions true [NB.bodyA, NB.bodyB] =
      [{ x := (NB.bodyA.x * NB.bodyA.mass + NB.bodyB.x * NB.bodyB.mass) /
            (NB.bodyA.mass + NB.bodyB.mass),
         y := (NB.bodyA.y * NB.bodyA.mass + NB.bodyB.y * NB.bodyB.mass) /
            (NB.bodyA.mass + NB.bodyB.mass),
         vx := (NB.bodyA.vx * NB.bodyA.mass + NB.bodyB.vx * NB.bodyB.mass) /
            (NB.bodyA.mass + NB.bodyB.mass),
         vy := (NB.bodyA.vy * NB.bodyA.mass + NB.bodyB.vy * NB.bodyB.mass) /
            (NB.bodyA.mass + NB.bodyB.mass),
         mass := NB.bodyA.mass + NB.bodyB.mass,
         radius := (NB.bodyA.radius ^ (3 : ℕ) + NB.bodyB.radius ^ (3 : ℕ)) ^ ((1 : ℝ) / 3) }] := by
  have hov : NB.bodyDist NB.bodyA NB.bodyB < NB.bodyA.radius + NB.bodyB.radius := by
    norm_num [NB.bodyDist, NB.bodyA, NB.bodyB, Real.sqrt_one]
  exact ⟨hov, two_body_overlap_merges NB.bodyA NB.bodyB hov⟩

/-- C8: every trajectory/history buffer is bounded with FIFO eviction
and monotone recorded times: the spring-mass graph push keeps all seven
buffers within 300 entries with the time samples increasing and equal
to the bounded FIFO push of the clock, the Lorenz trajectory push keeps
the trajectory within 2000 points and equal to the bounded FIFO push of
the new sample, and the double-pendulum update (and its
history-recording fragment alone) keeps the trail within 500 points,
the phase buffers within 500, the energy buffers within 300 with
increasing time samples, and the Lyapunov history within 200. -/
theorem history_buffers_bounded_fifo :
    (∀ (p : HO.Params) (s : HO.State) (dt : ℝ), 0 ≤ dt → HO.buffersInv s →
      HO.buffersInv (HO.update p s dt) ∧
      (s.isDragging = false →
        (HO.update p s dt).timeData =
          pushBounded HO.maxDataPoints s.timeData (s.time + dt))) ∧
    (∀ (s : Lorenz.State) (dt : ℝ), Lorenz.trajInv s →
      Lorenz.trajInv (Lorenz.updateTrajectory s dt) ∧
      (Lorenz.updateTrajectory s dt).trajectory =
        pushBounded Lorenz.maxTrajectoryPoints s.trajectory
          ⟨(Lorenz.stepXYZ s s.x s.y s.z dt).1, (Lorenz.stepXYZ s s.x s.y s.z dt).2.1,
            (Lorenz.stepXYZ s s.x s.y s.z dt).2.2, s.time⟩) ∧
    (∀ (p : DP.Params) (s : DP.State) (dt : ℝ), DP.buffersInv s →
      DP.buffersInv (DP.update p s dt) ∧ DP.buffersInv (DP.storeBuffers p s)) := by
  refine ⟨?_, ?_, ?_⟩
  · intro p s dt hdt h
    exact ⟨HO.ho_update_inv p s dt hdt h, fun hd => HO.ho_update_timeData p s dt hd⟩
  · intro s dt h
    exact ⟨Lorenz.lorenz_traj_inv_step s dt h, Lorenz.lorenz_traj_push s dt⟩
  · intro p s dt h
    exact ⟨DP.dp_update_inv p s dt h, DP.dp_store_inv p s h⟩

theorem history_buffers_bounded_fifo_witness :
    HO.buffersInv (HO.update HO.defaultParams HO.emptyState 1) ∧
    Lorenz.trajInv (Lorenz.updateTrajectory Lorenz.coincidentState 1) ∧
    DP.buffersInv (DP.update DP.cParams DP.cState 1) := by
  have hho : HO.buffersInv HO.emptyState := by
    simp [HO.buffersInv, HO.emptyState]
  have hlor : Lorenz.trajInv Lorenz.coincidentState := by
    simp [Lorenz.trajInv, Lorenz.coincidentState]
  have hdp : DP.buffersInv DP.cState := by
    simp [DP.buffersInv, DP.cState]
  exact ⟨(history_buffers_bounded_fifo.1 HO.defaultParams HO.emptyState 1 zero_le_one hho).1,
    (history_buffers_bounded_fifo.2.1 Lorenz.coincidentState 1 hlor).1,
    (history_buffers_bounded_fifo.2.2 DP.cParams DP.cState 1 hdp).1⟩
